import Mathlib

/-!
Verification development for the ID-card template rendering engine
(`app/template_renderer.py` of the id-automation repository).

The Python renderer works on raw JSON-like dictionaries.  We embed the
dynamic values it manipulates as the inductive `PyVal`, dictionaries as
association lists with first-occurrence lookup (Python dict keys are
unique, so first-occurrence lookup is faithful), and Python exceptions
as the `Except PyExc` monad.  Machine images (PIL) are modelled as a
size plus a total pixel function `Int → Int → Color`; the PIL leaf
operations the renderer calls (file probing, `Image.open`, resampling
kernels, glyph rasterisation, the qrcode library) are collected in an
`Env` record, while all arithmetic, path resolution, layout, dispatch
and error-handling logic of the repository itself is translated
concretely.  Python `float` arithmetic is modelled with `ℚ`.
-/

/-- Python exception classes that the renderer can raise, abstracted to
their class; the renderer only ever branches on "an exception happened",
never on its class. -/
inductive PyExc where
  | attributeError
  | typeError
  | valueError
  | zeroDivisionError
  | osError
  deriving DecidableEq, Repr

/-- JSON-like dynamic values manipulated by the renderer (template
documents, layer dicts, data records).  Python floats are modelled by
`ℚ`. -/
inductive PyVal where
  | none
  | bool (b : Bool)
  | int (n : Int)
  | float (q : ℚ)
  | str (s : String)
  | list (xs : List PyVal)
  | dict (kvs : List (String × PyVal))

/-- A Python dict with string keys, as the renderer receives layers and
records; first-occurrence lookup (keys are unique in a Python dict). -/
abbrev PyDict := List (String × PyVal)

/-- First-occurrence association-list lookup, modelling Python dict
indexing. -/
def dlookup (k : String) : PyDict → Option PyVal
  | [] => Option.none
  | (k', v) :: rest => if k = k' then some v else dlookup k rest

/-- Python `d.get(key, default)` on a dict that is statically known to be
a dict (e.g. a layer inside the render loop). -/
def dget (d : PyDict) (k : String) (dflt : PyVal) : PyVal :=
  (dlookup k d).getD dflt

/-- Python `d[key] = v`: replace the first binding of `k` or append. -/
def dset (k : String) (v : PyVal) : PyDict → PyDict
  | [] => [(k, v)]
  | (k', v') :: rest => if k = k' then (k, v) :: rest else (k', v') :: dset k v rest

/-- Python `obj.get(key, default)` on an arbitrary value: only dicts have
`.get`; every other value raises `AttributeError`. -/
def pyGetD (v : PyVal) (k : String) (dflt : PyVal) : Except PyExc PyVal :=
  match v with
  | .dict kvs => .ok (dget kvs k dflt)
  | _ => .error .attributeError

/-- Python truthiness of a value. -/
def pyTruthy : PyVal → Bool
  | .none => false
  | .bool b => b
  | .int n => n != 0
  | .float q => q != 0
  | .str s => s ≠ ""
  | .list xs => !xs.isEmpty
  | .dict kvs => !kvs.isEmpty

/-- Python `v == s` against a string literal: `True` only for equal
strings (a string never equals a non-string). -/
def pyEqStr (v : PyVal) (s : String) : Bool :=
  match v with
  | .str t => t = s
  | _ => false

/-- Python `v != 0` (used for the rotation test): numeric zero values
compare equal to `0`, every non-numeric value is `!= 0`. -/
def pyNonZero : PyVal → Bool
  | .int n => n != 0
  | .bool b => b
  | .float q => q != 0
  | _ => true

/-- Python `str(v)`.  Exact for `None`/`bool`/`int`/`str` (the cases the
data records exercise); floats and containers are rendered with a
simplified spelling, which no theorem below depends on. -/
def pyStr : PyVal → String
  | .none => "None"
  | .bool b => if b then "True" else "False"
  | .int n => toString n
  | .float q => toString q.num ++ "/" ++ toString q.den
  | .str s => s
  | .list _ => "<list>"
  | .dict _ => "<dict>"

/-- Coercion of a value used in Python numeric arithmetic (`+`, `*`,
comparisons with numbers): numbers and bools coerce, everything else is a
`TypeError`. -/
def pyArith : PyVal → Except PyExc ℚ
  | .bool b => .ok (if b then 1 else 0)
  | .int n => .ok (n : ℚ)
  | .float q => .ok q
  | _ => .error .typeError

/-- Python `int(v)`: ints and bools pass, floats truncate toward zero,
numeric strings parse, everything else raises. -/
def pyIntCoerce : PyVal → Except PyExc Int
  | .bool b => .ok (if b then 1 else 0)
  | .int n => .ok n
  | .float q => .ok (q.num / (q.den : Int))
  | .str s =>
    match s.trim.toInt? with
    | some n => .ok n
    | Option.none => .error .valueError
  | _ => .error .typeError

/-- An integer dimension as `PIL.Image.new` requires: an int (or bool),
non-negative; floats and strings raise `TypeError`, negative sizes
`ValueError`. -/
def pySizeInt : PyVal → Except PyExc Int
  | .bool b => .ok (if b then 1 else 0)
  | .int n => if n < 0 then .error .valueError else .ok n
  | _ => .error .typeError

/-- Truncation toward zero of a rational, modelling Python `int(float)`. -/
def ratTrunc (q : ℚ) : Int := q.num / (q.den : Int)

/-- Require a rational to be integral, modelling PIL calls (`Image.new`,
`Image.paste` positions) that raise `TypeError` on non-integer
arguments. -/
def toIntE (q : ℚ) : Except PyExc Int :=
  if q.den = 1 then .ok q.num else .error .typeError

/-- Python `a <= b` between two dynamic sort keys: numbers (and bools)
compare numerically, strings lexicographically; a mixed or non-ordered
pair raises `TypeError`. -/
def pyLeE : PyVal → PyVal → Except PyExc Bool
  | .int a, .int b => .ok (a ≤ b)
  | .int a, .bool b => .ok ((a : ℚ) ≤ (if b then 1 else 0))
  | .int a, .float b => .ok ((a : ℚ) ≤ b)
  | .bool a, .int b => .ok ((if a then 1 else (0 : ℚ)) ≤ (b : ℚ))
  | .bool a, .bool b => .ok ((if a then 1 else (0 : ℚ)) ≤ (if b then 1 else 0))
  | .bool a, .float b => .ok ((if a then 1 else (0 : ℚ)) ≤ b)
  | .float a, .int b => .ok (a ≤ (b : ℚ))
  | .float a, .bool b => .ok (a ≤ (if b then 1 else 0))
  | .float a, .float b => .ok (a ≤ b)
  | .str a, .str b => .ok (a ≤ b)
  | _, _ => .error .typeError

/-- An 8-bit RGBA colour. -/
structure Color where
  r : Nat
  g : Nat
  b : Nat
  a : Nat
  deriving DecidableEq, Repr

/-- Fully transparent black, the fill of freshly created RGBA buffers. -/
def clearColor : Color := ⟨0, 0, 0, 0⟩

/-- Value of one hexadecimal digit. -/
def hexVal (c : Char) : Option Nat :=
  if '0' ≤ c ∧ c ≤ '9' then some (c.toNat - '0'.toNat)
  else if 'a' ≤ c ∧ c ≤ 'f' then some (c.toNat - 'a'.toNat + 10)
  else if 'A' ≤ c ∧ c ≤ 'F' then some (c.toNat - 'A'.toNat + 10)
  else Option.none

/-- Two hex digits to a byte. -/
def hexByte (c₁ c₂ : Char) : Option Nat := do
  let h ← hexVal c₁
  let l ← hexVal c₂
  pure (h * 16 + l)

/-- Model of `PIL.ImageColor.getrgb` restricted to the hexadecimal forms
the repository's templates use (`#rgb`, `#rrggbb`, `#rrggbbaa`); any
other specifier — including the `rgba(0,0,0,0.25)` strings the layer
model uses for shadows, which PIL also rejects because of the float
alpha — raises `ValueError`. -/
def parseColor (s : String) : Except PyExc Color :=
  match s.data with
  | ['#', a, b, c] =>
    match hexVal a, hexVal b, hexVal c with
    | some x, some y, some z => .ok ⟨x * 17, y * 17, z * 17, 255⟩
    | _, _, _ => .error .valueError
  | ['#', a, b, c, d, e, f] =>
    match hexByte a b, hexByte c d, hexByte e f with
    | some x, some y, some z => .ok ⟨x, y, z, 255⟩
    | _, _, _ => .error .valueError
  | ['#', a, b, c, d, e, f, g, h] =>
    match hexByte a b, hexByte c d, hexByte e f, hexByte g h with
    | some x, some y, some z, some w => .ok ⟨x, y, z, w⟩
    | _, _, _, _ => .error .valueError
  | _ => .error .valueError

/-- A raster image: a size and a total pixel function.  Reads outside
`[0, w) × [0, h)` are never observed by the claims below. -/
structure Img where
  w : Int
  h : Int
  px : Int → Int → Color

/-- `PIL.Image.new('RGBA', (w, h), color)`. -/
def mkImg (w h : Int) (c : Color) : Img := ⟨w, h, fun _ _ => c⟩

/-- One channel of PIL's `paste`-with-mask interpolation
`out = (src·m + dst·(255−m)) / 255`. -/
def blendCh (s d m : Nat) : Nat := (s * m + d * (255 - m)) / 255

/-- PIL `paste` interpolation of a full pixel, with the source's alpha
channel as the mask (as in `card.paste(img, pos, img)`). -/
def blendPx (s d : Color) : Color :=
  ⟨blendCh s.r d.r s.a, blendCh s.g d.g s.a, blendCh s.b d.b s.a, blendCh s.a d.a s.a⟩

/-- `s.lower()` via a character map (byte-position-free so that closed
proofs can evaluate it). -/
def strLower (s : String) : String := String.mk (s.data.map Char.toLower)

/-- `s.upper()` via a character map. -/
def strUpper (s : String) : String := String.mk (s.data.map Char.toUpper)

/-- `p` is a prefix of `s` (character lists). -/
def charsPrefix : List Char → List Char → Bool
  | [], _ => true
  | _ :: _, [] => false
  | p :: ps, c :: cs => p = c && charsPrefix ps cs

/-- `s.startswith(p)`. -/
def strStarts (s p : String) : Bool := charsPrefix p.data s.data

/-- `sub` occurs somewhere in `s` (character lists). -/
def charsContains (sub : List Char) : List Char → Bool
  | [] => charsPrefix sub []
  | c :: rest => charsPrefix sub (c :: rest) || charsContains sub rest

/-- Drop the first `n` characters. -/
def strDrop (s : String) (n : Nat) : String := String.mk (s.data.drop n)

/-- Split a character list at a separator character. -/
def splitChar (sep : Char) : List Char → List (List Char)
  | [] => [[]]
  | c :: rest =>
    let r := splitChar sep rest
    if c = sep then [] :: r else (c :: r.headD []) :: r.tail

/-- The suffix after the last occurrence of `sep`, when `sep` occurs. -/
def lastAfterChars (sep : List Char) : List Char → Option (List Char)
  | [] => Option.none
  | c :: rest =>
    match lastAfterChars sep rest with
    | some r => some r
    | Option.none =>
      if sep ≠ [] && charsPrefix sep (c :: rest) then some ((c :: rest).drop sep.length)
      else Option.none

/-- A font resource handle as returned by the font manager: either a
truetype file at some path and size, or PIL's built-in bitmap fallback
(`ImageFont.load_default`). -/
inductive Font where
  | truetype (path : String) (size : Int)
  | fallback
  deriving DecidableEq, Repr

/-- The external world the renderer calls into: the file system, PIL's
decoders and resampling kernels, glyph metrics/rasters and the qrcode
library.  Everything the repository itself computes is modelled
concretely; only these leaf operations are parameters. -/
structure Env where
  /-- `Path(p).exists()` -/
  fileExists : String → Bool
  /-- `Image.open(p).convert('RGBA')`; decoding may raise. -/
  openImage : String → Except PyExc Img
  /-- `ImageFont.truetype(path, size)`; `none` models a raised exception. -/
  truetype : String → Int → Option Font
  /-- width of `font.getbbox(s)` (`bbox[2] - bbox[0]`). -/
  textWidth : Font → String → Nat
  /-- glyph raster of drawing `s` at the origin with `font`: which
  offsets receive ink.  `ImageDraw.text` stamps this raster translated
  to the anchor point. -/
  glyphMask : Font → String → Int → Int → Bool
  /-- resampling kernel of `Image.resize` to a target size: the pixel
  content of the resized image. -/
  resamplePx : Img → Int → Int → Int → Int → Color
  /-- pixel content of `ImageOps.fit` (cover: scale + centre-crop). -/
  fitPx : Img → Int → Int → Int → Int → Color
  /-- `Image.rotate(angle, expand=True, resample=BICUBIC)` for angles
  that are not a multiple of 360 (those are handled exactly). -/
  rotated : Img → ℚ → Img
  /-- `qrcode` library: QR symbol for the given content, error-correction
  constant and fore/background colour values; may raise (e.g. on
  unparsable colours). -/
  qrMake : String → Nat → PyVal → PyVal → Except PyExc Img

/-- `img.resize((w, h), LANCZOS)`. -/
def resizeImg (env : Env) (img : Img) (w h : Int) : Img :=
  ⟨w, h, fun i j => env.resamplePx img w h i j⟩

/-- `ImageOps.fit(img, (w, h), centering=(0.5, 0.5))`: result has exactly
the box size; the scaled-and-cropped content is the kernel's. -/
def coverFit (env : Env) (img : Img) (w h : Int) : Img :=
  ⟨w, h, fun i j => env.fitPx img w h i j⟩

/-- `dst.paste(src, (x, y))` without a mask: the source rectangle
replaces the destination, all four channels. -/
def pasteOpaque (src : Img) (x y : Int) (dst : Img) : Img :=
  ⟨dst.w, dst.h, fun i j =>
    if x ≤ i ∧ i < x + src.w ∧ y ≤ j ∧ j < y + src.h then src.px (i - x) (j - y)
    else dst.px i j⟩

/-- `dst.paste(src, (x, y), src)`: paste through the source's own alpha
channel as mask. -/
def pasteMask (src : Img) (x y : Int) (dst : Img) : Img :=
  ⟨dst.w, dst.h, fun i j =>
    if x ≤ i ∧ i < x + src.w ∧ y ≤ j ∧ j < y + src.h then
      blendPx (src.px (i - x) (j - y)) (dst.px i j)
    else dst.px i j⟩

/-- `pathlib` `/` join: joining an absolute right side replaces the
left (POSIX model; no `//`-collapsing is modelled, no claim needs it). -/
def pathJoin (a b : String) : String :=
  if strStarts b "/" then b else if a = "" then b else a ++ "/" ++ b

/-- `Path(s).name`: the last non-empty path component. -/
def pathName (s : String) : String :=
  String.mk ((((splitChar '/' s.data).filter (fun c => c ≠ [])).getLastD []))

/-- Python `sub in s` substring test. -/
def containsSub (s sub : String) : Bool := charsContains sub.data s.data

/-- Substring after the last occurrence of `sep`, modelling
`s.split(sep)[-1]`. -/
def lastAfter (s sep : String) : String :=
  match lastAfterChars sep.data s.data with
  | some r => String.mk r
  | Option.none => s

namespace FontManager

/-- `FontManager.FONT_MAP` verbatim. -/
def FONT_MAP : List (String × String) :=
  [("arial", "arial.ttf"),
   ("arial bold", "arialbd.ttf"),
   ("times new roman", "times.ttf"),
   ("times new roman bold", "timesbd.ttf"),
   ("calibri", "calibri.ttf"),
   ("calibri bold", "calibrib.ttf"),
   ("verdana", "verdana.ttf"),
   ("verdana bold", "verdanab.ttf"),
   ("tahoma", "tahoma.ttf"),
   ("tahoma bold", "tahomabd.ttf"),
   ("georgia", "georgia.ttf"),
   ("georgia bold", "georgiab.ttf"),
   ("roboto", "Roboto-Regular.ttf"),
   ("roboto bold", "Roboto-Bold.ttf")]

/-- `FontManager.FONT_PATHS` verbatim. -/
def FONT_PATHS : List String :=
  ["C:/Windows/Fonts", "C:/WINDOWS/FONTS", "./fonts", "../fonts"]

/-- String-keyed lookup in the font tables. -/
def tableGet (k : String) : List (String × String) → Option String
  | [] => Option.none
  | (k', v) :: rest => if k = k' then some v else tableGet k rest

/-- `weight in ('bold', '600', '700', '800', '900')`. -/
def isBoldWeight (weight : String) : Bool :=
  weight = "bold" || weight = "600" || weight = "700" || weight = "800" || weight = "900"

/-- The cache key built at the top of `get_font`:
`(family.lower(), size, weight)` — note the raw weight string. -/
def cache_key (family : String) (size : Int) (weight : String) : String × Int × String :=
  (strLower family, size, weight)

/-- Body of `_load_font` given the already-computed bold bucket: build
the font key, look it up in `FONT_MAP` (falling back to the plain family
entry), probe `FONT_PATHS`, then system Arial, then the built-in
default.  A failed `truetype` load is caught and the search continues.
Never fails. -/
def load_font_core (env : Env) (family : String) (size : Int) (is_bold : Bool) : Font :=
  let family_lower := strLower family
  let font_key := if is_bold then family_lower ++ " bold" else family_lower
  let font_file :=
    match tableGet font_key FONT_MAP with
    | some f => some f
    | Option.none => tableGet family_lower FONT_MAP
  let fromMap :=
    match font_file with
    | some f =>
      FONT_PATHS.findSome? (fun base =>
        let p := pathJoin base f
        if env.fileExists p then env.truetype p size else Option.none)
    | Option.none => Option.none
  match fromMap with
  | some ft => ft
  | Option.none =>
    match env.truetype (if is_bold then "arialbd.ttf" else "arial.ttf") size with
    | some ft => ft
    | Option.none => Font.fallback

/-- `FontManager._load_font(family, size, weight)`. -/
def load_font (env : Env) (family : String) (size : Int) (weight : String) : Font :=
  load_font_core env family size (isBoldWeight weight)

/-- `_load_font` as called from the render path, where the weight came
out of a layer dict: a non-string weight is simply not in the bold
tuple. -/
def load_font_v (env : Env) (family : String) (size : Int) (weightV : PyVal) : Font :=
  load_font_core env family size
    (match weightV with
     | .str s => isBoldWeight s
     | _ => false)

/-- Cache state of the class-level `_cache` dict. -/
abbrev Cache := List ((String × Int × String) × Font)

/-- `FontManager.get_font`: look up the cache key, otherwise load and
populate. -/
def get_font (env : Env) (cache : Cache) (family : String) (size : Int) (weight : String) :
    Font × Cache :=
  let key := cache_key family size weight
  match cache.lookup key with
  | some f => (f, cache)
  | Option.none =>
    let f := load_font env family size weight
    (f, (key, f) :: cache)

end FontManager

/-- Background-image path resolution of `TemplateRenderer.render`
(lines 507–524): the `/api/templates/backgrounds/` prefix maps under
`data/templates`, any other leading-slash path is reduced to its
filename under `data/templates`, and a relative path resolves against
the renderer's template folder. -/
def resolveBgPath (templateFolder : String) (bg : String) : String :=
  if strStarts bg "/api/templates/backgrounds/" then
    pathJoin (pathJoin "data" "templates") (strDrop bg "/api/templates/backgrounds/".data.length)
  else if strStarts bg "/" then
    pathJoin (pathJoin "data" "templates") (pathName bg)
  else
    pathJoin templateFolder bg

/-- Image-layer source resolution of `render_image_layer`
(lines 276–292): upload-style URLs (containing both `http` and
`uploads`) map their trailing filename under `data/uploads`; otherwise a
relative source joins the base path and an absolute one is used as-is.
(The `/static/uploads/` branch of the source is subsumed by the
`/uploads/` branch, whose separator it contains.) -/
def resolveImagePath (basePath : String) (src : String) : String :=
  if containsSub src "http" && containsSub src "uploads" then
    if containsSub src "/uploads/" then
      pathJoin "data/uploads" (lastAfter src "/uploads/")
    else if containsSub src "/static/uploads/" then
      pathJoin "data/uploads" (lastAfter src "/static/uploads/")
    else src
  else
    if basePath ≠ "" && !(strStarts src "/") then pathJoin basePath src else src

/-- `round_aspect(number, key)` from `PIL.Image.thumbnail`: the floor or
ceiling of `number`, whichever the key prefers (floor on ties), at
least 1. -/
def roundAspect (number : ℚ) (key : Int → ℚ) : Int :=
  max (if key ⌈number⌉ < key ⌊number⌋ then ⌈number⌉ else ⌊number⌋) 1

/-- The size computed by `img.thumbnail((bw, bh))`: no change when the
image already fits, otherwise shrink preserving aspect ratio (float
arithmetic modelled by `ℚ`). -/
def thumbSize (sw sh bw bh : Int) : Int × Int :=
  if bw ≥ sw ∧ bh ≥ sh then (sw, sh)
  else
    let aspect : ℚ := (sw : ℚ) / (sh : ℚ)
    if (bw : ℚ) / (bh : ℚ) ≥ aspect then
      (roundAspect ((bh : ℚ) * aspect) (fun n => |aspect - (n : ℚ) / (bh : ℚ)|), bh)
    else
      (bw, roundAspect ((bw : ℚ) / aspect)
        (fun n => if n = 0 then 0 else |aspect - (bw : ℚ) / (n : ℚ)|))

/-- The `object_fit == 'contain'` branch of `render_image_layer`
(lines 312–319): thumbnail the source into the box (resizing only when
the size changed, as `thumbnail` does), then centre it on a transparent
buffer of the box size, pasted through its own alpha. -/
def containFit (env : Env) (img : Img) (w h : Int) : Img :=
  let ts := thumbSize img.w img.h w h
  let thumb := if ts = (img.w, img.h) then img else resizeImg env img ts.1 ts.2
  let paste_x := (w - ts.1).fdiv 2
  let paste_y := (h - ts.2).fdiv 2
  pasteMask thumb paste_x paste_y (mkImg w h clearColor)

/-- `ImageDraw.text((x, y), s, fill=colorV, font=font)` on an RGBA
image: parse the fill (raising on bad colour specifiers, the way PIL
does), then stamp the glyph raster translated to the (truncated)
anchor.  `ImageDraw` in mode RGBA writes the raw fill value where the
raster has ink (no alpha compositing). -/
def drawText (env : Env) (img : Img) (x y : ℚ) (s : String) (font : Font) (colorV : PyVal) :
    Except PyExc Img := do
  let cstr ← (match colorV with
    | .str c => Except.ok c
    | _ => Except.error PyExc.typeError)
  let col ← parseColor cstr
  Except.ok ⟨img.w, img.h, fun i j =>
    if env.glyphMask font s (i - ratTrunc x) (j - ratTrunc y) then col else img.px i j⟩

/-- Python `angle % 360.0`: the representative in `[0, 360)`. -/
def rotNormalized (angle : ℚ) : ℚ := angle - 360 * ⌊angle / 360⌋

/-- `img.rotate(angle, expand=True, resample=BICUBIC)`.  PIL first
reduces the angle modulo 360 and returns an exact copy when the result
is 0 (so rotation by ±360 is the identity, size included); other angles
go to the abstract kernel. -/
def pilRotateExpand (env : Env) (img : Img) (angle : ℚ) : Img :=
  if rotNormalized angle = 0 then img else env.rotated img angle

/-- Membership in a rounded rectangle of size `w × h` with corner radius
`rad` (the mask drawn by `apply_rounded_corners`). -/
def inRoundedRect (w h rad : Int) (i j : Int) : Bool :=
  0 ≤ i && i < w && 0 ≤ j && j < h &&
  (!(i < rad && j < rad && (i - rad) ^ 2 + (j - rad) ^ 2 > rad ^ 2)) &&
  (!(i ≥ w - rad && j < rad && (i - (w - rad)) ^ 2 + (j - rad) ^ 2 > rad ^ 2)) &&
  (!(i < rad && j ≥ h - rad && (i - rad) ^ 2 + (j - (h - rad)) ^ 2 > rad ^ 2)) &&
  (!(i ≥ w - rad && j ≥ h - rad && (i - (w - rad)) ^ 2 + (j - (h - rad)) ^ 2 > rad ^ 2))

/-- `apply_rounded_corners(img, radius)`: paste the image onto a fresh
buffer and replace its alpha channel with the rounded-rectangle mask
(255 inside, 0 outside — `putalpha` discards the original alpha). -/
def apply_rounded_corners (img : Img) (radius : Int) : Img :=
  ⟨img.w, img.h, fun i j =>
    let c := img.px i j
    if inRoundedRect img.w img.h radius i j then ⟨c.r, c.g, c.b, 255⟩
    else ⟨c.r, c.g, c.b, 0⟩⟩

/-- An optional colour argument to an `ImageDraw` primitive: `None`
suppresses that paint, a string is parsed, anything else is rejected. -/
def optColor (v : PyVal) : Except PyExc (Option Color) :=
  match v with
  | .none => .ok Option.none
  | .str s => do
    let c ← parseColor s
    Except.ok (some c)
  | _ => .error .valueError

/-- `draw.rectangle([x0, y0, x1, y1], fill=, outline=, width=)`: fill
the inclusive rectangle, then stroke an inward outline ring of the
given width.  Degenerate boxes (`x1 < x0` or `y1 < y0`) raise
`ValueError` as in Pillow. -/
def drawRect (dst : Img) (x0 y0 x1 y1 : Int) (fill outline : Option Color) (width : Int) :
    Except PyExc Img :=
  if x1 < x0 ∨ y1 < y0 then .error .valueError
  else .ok ⟨dst.w, dst.h, fun i j =>
    let inBox := x0 ≤ i ∧ i ≤ x1 ∧ y0 ≤ j ∧ j ≤ y1
    let inRing := inBox ∧ (i < x0 + width ∨ i > x1 - width ∨ j < y0 + width ∨ j > y1 - width)
    match outline, fill with
    | some oc, _ => if width > 0 ∧ inRing then oc else
        match fill with
        | some fc => if inBox then fc else dst.px i j
        | Option.none => dst.px i j
    | Option.none, some fc => if inBox then fc else dst.px i j
    | Option.none, Option.none => dst.px i j⟩

/-- Membership in the closed ellipse inscribed in
`[x0, x1] × [y0, y1]` (refined to the documented shape of
`draw.ellipse`; pixel-exact PIL rasterisation is not needed by any
claim). -/
def inEllipse (x0 y0 x1 y1 : Int) (i j : Int) : Bool :=
  let cx : ℚ := ((x0 : ℚ) + (x1 : ℚ)) / 2
  let cy : ℚ := ((y0 : ℚ) + (y1 : ℚ)) / 2
  let rx : ℚ := ((x1 : ℚ) - (x0 : ℚ)) / 2
  let ry : ℚ := ((y1 : ℚ) - (y0 : ℚ)) / 2
  decide (((i : ℚ) - cx) ^ 2 * ry ^ 2 + ((j : ℚ) - cy) ^ 2 * rx ^ 2 ≤ rx ^ 2 * ry ^ 2)

/-- `draw.ellipse([x0, y0, x1, y1], fill=, outline=, width=)`. -/
def drawEllipse (dst : Img) (x0 y0 x1 y1 : Int) (fill outline : Option Color) (width : Int) :
    Except PyExc Img :=
  if x1 < x0 ∨ y1 < y0 then .error .valueError
  else .ok ⟨dst.w, dst.h, fun i j =>
    let inside := inEllipse x0 y0 x1 y1 i j
    let inner := inEllipse (x0 + width) (y0 + width) (x1 - width) (y1 - width) i j
    match outline, fill with
    | some oc, _ =>
      if width > 0 ∧ inside ∧ !inner then oc else
        match fill with
        | some fc => if inside then fc else dst.px i j
        | Option.none => dst.px i j
    | Option.none, some fc => if inside then fc else dst.px i j
    | Option.none, Option.none => dst.px i j⟩

/-- Membership in a stroked segment from `(ax, ay)` to `(bx, by)` of the
given width (squared point-to-segment distance). -/
def onSegment (ax ay bx b2 : ℚ) (width : ℚ) (i j : ℚ) : Bool :=
  let dx := bx - ax
  let dy := b2 - ay
  let len2 := dx * dx + dy * dy
  if len2 = 0 then decide ((i - ax) ^ 2 + (j - ay) ^ 2 ≤ (width / 2) ^ 2)
  else
    let t := max 0 (min 1 (((i - ax) * dx + (j - ay) * dy) / len2))
    decide ((i - (ax + t * dx)) ^ 2 + (j - (ay + t * dy)) ^ 2 ≤ (width / 2) ^ 2)

/-- `draw.line([x0, y0, x1, y1], fill=, width=)`. -/
def drawLine (dst : Img) (ax ay bx b2 : ℚ) (fill : Option Color) (width : Int) : Img :=
  ⟨dst.w, dst.h, fun i j =>
    match fill with
    | some c => if width > 0 ∧ onSegment ax ay bx b2 (width : ℚ) (i : ℚ) (j : ℚ) then c
        else dst.px i j
    | Option.none => dst.px i j⟩

/-- Lines 112–119 of `render_text_layer`: the data-binding resolution
step.  `field == 'static'` short-circuits to the layer's literal text;
otherwise the record is consulted with the layer's literal text as the
`get` default, and the result is coerced with `str(...)`.  An unhashable
field value would raise, any other absent key falls back. -/
def resolveTextValue (d : PyDict) (data : PyDict) : Except PyExc PyVal :=
  let fieldV := dget d "field" (.str "")
  if pyEqStr fieldV "static" then .ok (dget d "text" (.str ""))
  else
    match fieldV with
    | .str f => .ok (.str (pyStr (dget data f (dget d "text" (.str "")))))
    | .list _ => .error .typeError
    | .dict _ => .error .typeError
    | _ => .ok (.str (pyStr (dget d "text" (.str ""))))

/-- Lines 126–129 of `render_text_layer`: the `uppercase`/`lowercase`
transform flags (uppercase wins when both are set); applying a case
method to a non-string raises `AttributeError` as in Python. -/
def applyCaseTransform (d : PyDict) (v : PyVal) : Except PyExc PyVal :=
  if pyTruthy (dget d "uppercase" .none) then
    match v with
    | .str s => .ok (.str (strUpper s))
    | _ => .error .attributeError
  else if pyTruthy (dget d "lowercase" .none) then
    match v with
    | .str s => .ok (.str (strLower s))
    | _ => .error .attributeError
  else .ok v

/-- The binding step followed by the case transform: the fully resolved
text of a text layer. -/
def resolvedText (d : PyDict) (data : PyDict) : Except PyExc PyVal := do
  let v ← resolveTextValue d data
  applyCaseTransform d v

/-- Break a character list into chunks of at most `w` characters (used
for words longer than one wrap line). -/
def chunkChars (w : Nat) (cs : List Char) : List String :=
  if _h : w = 0 then [String.mk cs]
  else if _h2 : cs.length ≤ w then [String.mk cs]
  else String.mk (cs.take w) :: chunkChars w (cs.drop w)
termination_by cs.length
decreasing_by
  simp only [List.length_drop]
  omega

/-- Break a string into chunks of at most `w` characters. -/
def chunkStr (w : Nat) (s : String) : List String := chunkChars w s.data

/-- Greedy word packing for `textwrap.wrap(text, width)`: whitespace-
separated words are packed onto lines of at most `width` characters,
over-long words are broken.  (A behavioural approximation of the
`textwrap` module; every theorem below leaves word wrap disabled or uses
texts where the two agree.) -/
def wrapGreedy (width : Nat) (s : String) : List String :=
  let words := ((s.splitOn " ").filter (fun t => t ≠ "")).flatMap (chunkStr width)
  let step := fun (acc : List String × String) (word : String) =>
    let (done, cur) := acc
    if cur = "" then (done, word)
    else if cur.length + 1 + word.length ≤ width then (done, cur ++ " " ++ word)
    else (done ++ [cur], word)
  let r := words.foldl step ([], "")
  if r.2 = "" then r.1 else r.1 ++ [r.2]

/-- Per-line horizontal offset inside the rotation buffer (lines
183–192): centring and right-alignment are computed against the measured
text-block width, plus the fixed padding handled by the caller. -/
def rotAlignOff (alignV : PyVal) (maxTextWidth textWidth : Int) : ℚ :=
  if pyEqStr alignV "center" then (((maxTextWidth - textWidth).fdiv 2 : Int) : ℚ)
  else if pyEqStr alignV "right" then ((maxTextWidth - textWidth : Int) : ℚ)
  else 0

/-- Per-line horizontal offset in the direct (unrotated) path (lines
229–238): centring and right-alignment are computed against the layer
box width. -/
def directAlignOff (alignV : PyVal) (width : ℚ) (textWidth : Int) : ℚ :=
  if pyEqStr alignV "center" then ((⌊(width - (textWidth : ℚ)) / 2⌋ : Int) : ℚ)
  else if pyEqStr alignV "right" then width - (textWidth : ℚ)
  else 0

/-- The shared per-line drawing loop of `render_text_layer` (the
shadow-then-main body duplicated in both branches of the source, lines
179–203 and 225–249), parametrised by the branch's position formulas.
`lineX` receives the measured width of the line being drawn. -/
def drawLines (env : Env) (font : Font) (colorV shadowV : PyVal)
    (lineX : Int → ℚ) (lineY : Nat → ℚ) :
    Img → Nat → List String → Except PyExc Img
  | img, _, [] => .ok img
  | img, i, l :: ls => do
    let tw : Int := (env.textWidth font l : Int)
    let lx := lineX tw
    let ly := lineY i
    let img ← (if pyTruthy shadowV then do
        let sd ← (match shadowV with
          | PyVal.dict kvs => Except.ok kvs
          | _ => Except.error PyExc.attributeError)
        let ox ← pyArith (dget sd "offsetX" (.int 0))
        let oy ← pyArith (dget sd "offsetY" (.int 1))
        drawText env img (lx + ox) (ly + oy) l font (dget sd "color" (.str "rgba(0,0,0,0.25)"))
      else Except.ok img)
    let img ← drawText env img lx ly l font colorV
    drawLines env font colorV shadowV lineX lineY img (i + 1) ls

/-- `render_text_layer(card, layer, data, canvas_width)` (lines
104–251): resolve the bound text, bail out on empty text, apply case
transforms, acquire the font, split into lines, then either draw
directly onto the card (rotation 0) or draw onto a padded transparent
buffer, rotate it by `-rotation` and paste it back through its alpha.
Numeric layer attributes are coerced where Python's arithmetic would
coerce them (a type mismatch raises, and is caught by the compositor).
The `canvas_width` parameter is unused, as in the source. -/
def render_text_layer (env : Env) (card : Img) (layer : PyDict) (data : PyDict)
    (_canvas_width : Int) : Except PyExc Img := do
  let textV0 ← resolveTextValue layer data
  if ¬ pyTruthy textV0 then return card
  let textV ← applyCaseTransform layer textV0
  let fam ← (match dget layer "fontFamily" (.str "Arial") with
    | PyVal.str s => Except.ok s
    | _ => Except.error PyExc.attributeError)
  let fontSize ← pyIntCoerce (dget layer "fontSize" (.int 16))
  let font := FontManager.load_font_v env fam fontSize (dget layer "fontWeight" (.str "normal"))
  let x ← pyArith (dget layer "x" (.int 0))
  let y ← pyArith (dget layer "y" (.int 0))
  let width ← pyArith (dget layer "width" (.int 200))
  let height ← pyArith (dget layer "height" (.int 50))
  let textAlign := dget layer "textAlign" (.str "left")
  let wordWrap := pyTruthy (dget layer "wordWrap" (.bool false))
  let lineHeight ← pyArith (dget layer "lineHeight" (.float (6 / 5)))
  let colorV := dget layer "color" (.str "#000000")
  let rotationV := dget layer "rotation" (.int 0)
  let s ← (match textV with
    | PyVal.str t => Except.ok t
    | _ => Except.error PyExc.typeError)
  let lines ← (if wordWrap = true ∧ width > 0 then
      if (fontSize : ℚ) * (3 / 5) = 0 then Except.error PyExc.zeroDivisionError
      else Except.ok (wrapGreedy (max 1 (ratTrunc (width / ((fontSize : ℚ) * (3 / 5))))).toNat s)
    else Except.ok [s])
  let lineSpacing : Int := ratTrunc ((fontSize : ℚ) * lineHeight)
  let totalTextHeight : Int := (lines.length : Int) * lineSpacing
  let maxTextWidth : Int := lines.foldl (fun m l => max m ((env.textWidth font l : Int))) 0
  let shadowV := dget layer "textShadow" PyVal.none
  if pyNonZero rotationV then do
    let rot ← pyArith rotationV
    let temp_width ← toIntE (max width (maxTextWidth : ℚ) + 40)
    let temp_height ← toIntE (max height (totalTextHeight : ℚ) + 40)
    if temp_width < 0 ∨ temp_height < 0 then Except.error PyExc.valueError
    else do
      let temp ← drawLines env font colorV shadowV
        (fun tw => 20 + rotAlignOff textAlign maxTextWidth tw)
        (fun i => 20 + (i : ℚ) * (lineSpacing : ℚ))
        (mkImg temp_width temp_height clearColor) 0 lines
      let rotated := pilRotateExpand env temp (-rot)
      let paste_x ← toIntE (x - (((rotated.w - temp_width).fdiv 2 : Int) : ℚ))
      let paste_y ← toIntE (y - (((rotated.h - temp_height).fdiv 2 : Int) : ℚ))
      Except.ok (pasteMask rotated paste_x paste_y card)
  else
    drawLines env font colorV shadowV
      (fun tw => x + directAlignOff textAlign width tw)
      (fun i => y + (i : ℚ) * (lineSpacing : ℚ))
      card 0 lines

/-- `render_image_layer(card, layer, data, photo_image, base_path)`
(lines 254–347): bind the bitmap (`field == 'photo'` takes the supplied
portrait, otherwise a truthy `src` is resolved and loaded, with load
failures swallowed locally), apply the object-fit strategy and optional
rounded corners, paste through the image's alpha, then stroke the
optional plain rectangular border. -/
def render_image_layer (env : Env) (card : Img) (layer : PyDict) (_data : PyDict)
    (photo_image : Option Img) (base_path : String) : Except PyExc Img := do
  let x ← pyIntCoerce (dget layer "x" (.int 0))
  let y ← pyIntCoerce (dget layer "y" (.int 0))
  let width ← pyIntCoerce (dget layer "width" (.int 200))
  let height ← pyIntCoerce (dget layer "height" (.int 200))
  let fieldV := dget layer "field" PyVal.none
  let srcV := dget layer "src" PyVal.none
  let img? ← (if pyEqStr fieldV "photo" && photo_image.isSome then Except.ok photo_image
    else if pyTruthy srcV then do
      let src ← (match srcV with
        | PyVal.str s => Except.ok s
        | _ => Except.error PyExc.typeError)
      let p := resolveImagePath base_path src
      if env.fileExists p then
        match env.openImage p with
        | .ok im => Except.ok (some im)
        | .error _ => Except.ok Option.none
      else Except.ok Option.none
    else Except.ok Option.none)
  match img? with
  | Option.none => Except.ok card
  | some img => do
    let objectFit := dget layer "objectFit" (.str "cover")
    let img := if pyEqStr objectFit "cover" then coverFit env img width height
      else if pyEqStr objectFit "contain" then containFit env img width height
      else if pyEqStr objectFit "fill" then resizeImg env img width height
      else img
    let br ← pyArith (dget layer "borderRadius" (.int 0))
    let img := if br > 0 then apply_rounded_corners img (ratTrunc br) else img
    let card := pasteMask img x y card
    let borderV := dget layer "border" PyVal.none
    if pyTruthy borderV then do
      let bd ← (match borderV with
        | PyVal.dict kvs => Except.ok kvs
        | _ => Except.error PyExc.attributeError)
      let bw ← pyArith (dget bd "width" (.int 1))
      let bwI ← toIntE bw
      let bcol ← optColor (dget bd "color" (.str "#000000"))
      drawRect card x y (x + width) (y + height) Option.none bcol bwI
    else Except.ok card

/-- Rounded-rectangle variant of `draw.rectangle` used by
`render_shape_layer` when `borderRadius > 0`. -/
def drawRoundedRect (dst : Img) (x0 y0 x1 y1 rad : Int) (fill outline : Option Color)
    (width : Int) : Except PyExc Img :=
  if x1 < x0 ∨ y1 < y0 then .error .valueError
  else .ok ⟨dst.w, dst.h, fun i j =>
    let inBox := inRoundedRect (x1 - x0 + 1) (y1 - y0 + 1) rad (i - x0) (j - y0)
    let inner := inRoundedRect (x1 - x0 + 1 - 2 * width) (y1 - y0 + 1 - 2 * width) rad
      (i - x0 - width) (j - y0 - width)
    match outline, fill with
    | some oc, _ =>
      if width > 0 ∧ inBox ∧ !inner then oc else
        match fill with
        | some fc => if inBox then fc else dst.px i j
        | Option.none => dst.px i j
    | Option.none, some fc => if inBox then fc else dst.px i j
    | Option.none, Option.none => dst.px i j⟩

/-- `render_shape_layer(draw, layer)` (lines 365–408): rectangle
(optionally rounded), inscribed ellipse, or line from `(x, y)` to
`(x + width, y + height)`; the outline is suppressed when `stroke` is
falsy (width drops to 0), and the line colour is `stroke or fill`. -/
def render_shape_layer (card : Img) (layer : PyDict) : Except PyExc Img := do
  let x ← pyArith (dget layer "x" (.int 0))
  let y ← pyArith (dget layer "y" (.int 0))
  let width ← pyArith (dget layer "width" (.int 100))
  let height ← pyArith (dget layer "height" (.int 100))
  let shapeV := dget layer "shape" (.str "rectangle")
  let fillV := dget layer "fill" PyVal.none
  let strokeV := dget layer "stroke" PyVal.none
  let strokeWidthV := dget layer "strokeWidth" (.int 1)
  let brV := dget layer "borderRadius" (.int 0)
  if pyEqStr shapeV "rectangle" then do
    let br ← pyArith brV
    let fill ← optColor fillV
    let stroke ← optColor strokeV
    let w ← (if pyTruthy strokeV then do
        let q ← pyArith strokeWidthV
        toIntE q
      else Except.ok 0)
    let x0 := ratTrunc x
    let y0 := ratTrunc y
    let x1 := ratTrunc (x + width)
    let y1 := ratTrunc (y + height)
    if br > 0 then drawRoundedRect card x0 y0 x1 y1 (ratTrunc br) fill stroke w
    else drawRect card x0 y0 x1 y1 fill stroke w
  else if pyEqStr shapeV "circle" then do
    let fill ← optColor fillV
    let stroke ← optColor strokeV
    let w ← (if pyTruthy strokeV then do
        let q ← pyArith strokeWidthV
        toIntE q
      else Except.ok 0)
    drawEllipse card (ratTrunc x) (ratTrunc y) (ratTrunc (x + width)) (ratTrunc (y + height))
      fill stroke w
  else if pyEqStr shapeV "line" then do
    let lineColorV := if pyTruthy strokeV then strokeV else fillV
    let fill ← optColor lineColorV
    let wq ← pyArith strokeWidthV
    let w ← toIntE wq
    Except.ok (drawLine card x y (x + width) (y + height) fill w)
  else Except.ok card

/-- `error_map.get(error_level, ERROR_CORRECT_M)` with the qrcode
constants (`L = 1, M = 0, Q = 3, H = 2`); an unhashable level raises. -/
def errLevelConst : PyVal → Except PyExc Nat
  | .list _ => .error .typeError
  | .dict _ => .error .typeError
  | .str "L" => .ok 1
  | .str "M" => .ok 0
  | .str "Q" => .ok 3
  | .str "H" => .ok 2
  | _ => .ok 0

/-- `render_qr_code_layer(card, layer, data)` (lines 411–458): encode
`str(data.get(field, ''))`, skipping when empty; generate the QR symbol
with the mapped error-correction level and the layer's colours, resize
it to the layer box and paste it opaquely. -/
def render_qr_code_layer (env : Env) (card : Img) (layer : PyDict) (data : PyDict) :
    Except PyExc Img := do
  let x ← pyIntCoerce (dget layer "x" (.int 0))
  let y ← pyIntCoerce (dget layer "y" (.int 0))
  let width ← pyIntCoerce (dget layer "width" (.int 100))
  let height ← pyIntCoerce (dget layer "height" (.int 100))
  let fieldV := dget layer "field" (.str "id_number")
  let content ← (match fieldV with
    | PyVal.str f => Except.ok (pyStr (dget data f (.str "")))
    | PyVal.list _ => Except.error PyExc.typeError
    | PyVal.dict _ => Except.error PyExc.typeError
    | _ => Except.ok "")
  if content = "" then Except.ok card
  else do
    let ec ← errLevelConst (dget layer "errorCorrectionLevel" (.str "M"))
    let qr ← env.qrMake content ec (dget layer "foregroundColor" (.str "#000000"))
      (dget layer "backgroundColor" (.str "#ffffff"))
    let qr := resizeImg env qr width height
    Except.ok (pasteOpaque qr x y card)

/-- Log lines the compositor emits on recovered failures (the
`logger.error`/`logger.warning` calls of `TemplateRenderer.render` that
the error-handling contract mentions). -/
inductive LogEntry where
  | bgMissing (path : String)
  | bgLoadFailed (path : String) (e : PyExc)
  | noLayers (side : String)
  | unknownLayerType (ty idv : PyVal)
  | layerFailed (ty idv : PyVal) (e : PyExc)

/-- The layer's sort key `layer.get('zIndex', 0)` (line 545). -/
def zKeyV (d : PyDict) : PyVal := dget d "zIndex" (.int 0)

/-- `list(iterable)` as `sorted` performs it: lists enumerate their
elements, strings their characters, dicts their keys; non-iterables
raise `TypeError`. -/
def pyIterElems : PyVal → Except PyExc (List PyVal)
  | .list xs => .ok xs
  | .str s => .ok (s.data.map (fun c => .str (String.mk [c])))
  | .dict kvs => .ok (kvs.map (fun kv => PyVal.str kv.1))
  | _ => .error .typeError

/-- Key extraction pass of `sorted(layers, key=lambda l: l.get('zIndex', 0))`:
every element must support `.get` (i.e. be a dict), and its key is
computed up front. -/
def keyedLayers : List PyVal → Except PyExc (List (PyVal × PyDict))
  | [] => .ok []
  | v :: rest => do
    let d ← (match v with
      | PyVal.dict kvs => Except.ok kvs
      | _ => Except.error PyExc.attributeError)
    let tail ← keyedLayers rest
    Except.ok ((zKeyV d, d) :: tail)

/-- Stable insertion of a keyed layer (ties keep the earlier element
first, as Python's stable sort does); comparing incomparable keys
raises. -/
def orderedInsertE (a : PyVal × PyDict) :
    List (PyVal × PyDict) → Except PyExc (List (PyVal × PyDict))
  | [] => .ok [a]
  | b :: l => do
    let le ← pyLeE a.1 b.1
    if le then Except.ok (a :: b :: l)
    else do
      let r ← orderedInsertE a l
      Except.ok (b :: r)

/-- A stable sort of the keyed layers; Python's `sorted` is stable, so
any stable sort by the same keys computes the same list. -/
def insertionSortE : List (PyVal × PyDict) → Except PyExc (List (PyVal × PyDict))
  | [] => .ok []
  | b :: l => do
    let r ← insertionSortE l
    orderedInsertE b r

/-- `sorted(layers, key=lambda l: l.get('zIndex', 0))` (line 545). -/
def sortedLayers (layersV : PyVal) : Except PyExc (List PyDict) := do
  let items ← pyIterElems layersV
  let keyed ← keyedLayers items
  let sorted ← insertionSortE keyed
  Except.ok (sorted.map Prod.snd)

/-- The type-tag dispatch of the render loop (lines 559–576): `some`
carries the outcome of the matching renderer, `none` means the tag is
unrecognised. -/
def dispatchLayer (env : Env) (template_folder : String) (data : PyDict)
    (photo_image : Option Img) (canvas_width : Int) (card : Img) (layer : PyDict) :
    Option (Except PyExc Img) :=
  let ty := dget layer "type" PyVal.none
  if pyEqStr ty "text" then some (render_text_layer env card layer data canvas_width)
  else if pyEqStr ty "image" then
    some (render_image_layer env card layer data photo_image template_folder)
  else if pyEqStr ty "shape" then some (render_shape_layer card layer)
  else if pyEqStr ty "qr_code" then some (render_qr_code_layer env card layer data)
  else Option.none

/-- One iteration of the render loop (lines 551–581): skip invisible
layers; otherwise dispatch inside the `try`: a raising renderer leaves
the card as it was and logs the failure with the layer's type and id,
an unrecognised tag logs a warning, and in every case the loop
continues.  (The loop also reads `layer.get('opacity', 1.0)` and never
uses it, reproduced here as a dead binding.) -/
def layerStep (env : Env) (template_folder : String) (data : PyDict)
    (photo_image : Option Img) (canvas_width : Int) (st : Img × List LogEntry)
    (layer : PyDict) : Img × List LogEntry :=
  if ¬ pyTruthy (dget layer "visible" (.bool true)) then st
  else
    let ty := dget layer "type" PyVal.none
    let _opacity := dget layer "opacity" (.float 1)
    match dispatchLayer env template_folder data photo_image canvas_width st.1 layer with
    | some (.ok c) => (c, st.2)
    | some (.error e) =>
      (st.1, st.2 ++ [LogEntry.layerFailed ty (dget layer "id" PyVal.none) e])
    | Option.none =>
      (st.1, st.2 ++ [LogEntry.unknownLayerType ty (dget layer "id" PyVal.none)])

/-- The full render loop over the z-sorted layers. -/
def renderLayersLoop (env : Env) (template_folder : String) (data : PyDict)
    (photo_image : Option Img) (canvas_width : Int) (card : Img) (logs : List LogEntry)
    (ls : List PyDict) : Img × List LogEntry :=
  ls.foldl (layerStep env template_folder data photo_image canvas_width) (card, logs)

namespace TemplateRenderer

/-- `TemplateRenderer.render(template, data, photo_image, side)` (lines
474–582): build the base canvas from the template's canvas config,
resolve and paste the side's background image (missing or unloadable
backgrounds are logged and skipped), then z-sort the side's layers and
run the per-layer loop.  Only failures of this structural prelude
escape as errors. -/
def render (env : Env) (template_folder : String) (template : PyVal) (data : PyDict)
    (photo_image : Option Img) (side : String) : Except PyExc (Img × List LogEntry) := do
  let canvasV ← pyGetD template "canvas" (.dict [])
  let widthV ← pyGetD canvasV "width" (.int 591)
  let heightV ← pyGetD canvasV "height" (.int 1004)
  let bgColorV ← pyGetD canvasV "backgroundColor" (.str "#FFFFFF")
  let w ← pySizeInt widthV
  let h ← pySizeInt heightV
  let bg ← (match bgColorV with
    | PyVal.str s => parseColor s
    | _ => Except.error PyExc.valueError)
  let card := mkImg w h bg
  let sideDataV ← pyGetD template side (.dict [])
  let bgImageV ← pyGetD sideDataV "backgroundImage" PyVal.none
  let r ← (if pyTruthy bgImageV then
      match bgImageV with
      | PyVal.str s =>
        let bgPath := resolveBgPath template_folder s
        if env.fileExists bgPath then
          match env.openImage bgPath with
          | .ok bgi =>
            Except.ok (pasteOpaque (resizeImg env bgi w h) 0 0 card, ([] : List LogEntry))
          | .error e => Except.ok (card, [LogEntry.bgLoadFailed bgPath e])
        else Except.ok (card, [LogEntry.bgMissing bgPath])
      | _ => Except.error PyExc.attributeError
    else Except.ok (card, ([] : List LogEntry)))
  let layersV ← pyGetD sideDataV "layers" (.list [])
  let logs0 := r.2 ++ (if pyTruthy layersV then [] else [LogEntry.noLayers side])
  let sorted ← sortedLayers layersV
  Except.ok (renderLayersLoop env template_folder data photo_image w r.1 logs0 sorted)

/-- `render_both_sides`: the convenience entry rendering front then
back. -/
def render_both_sides (env : Env) (template_folder : String) (template : PyVal)
    (data : PyDict) (photo_image : Option Img) :
    Except PyExc ((Img × List LogEntry) × (Img × List LogEntry)) := do
  let front ← render env template_folder template data photo_image "front"
  let back ← render env template_folder template data photo_image "back"
  Except.ok (front, back)

end TemplateRenderer

/-- A concrete reference environment used by witnesses and
counterexamples: an empty file system, failing decoders, no truetype
fonts, a one-pixel glyph raster at the anchor and width-5 text
measurement. -/
def envNull : Env where
  fileExists := fun _ => false
  openImage := fun _ => .error .osError
  truetype := fun _ _ => Option.none
  textWidth := fun _ _ => 5
  glyphMask := fun _ _ u v => decide (u = 0 ∧ v = 0)
  resamplePx := fun _ _ _ _ _ => clearColor
  fitPx := fun _ _ _ _ _ => clearColor
  rotated := fun img _ => img
  qrMake := fun _ _ _ _ => .error .valueError

/-- Opaque white. -/
def whiteColor : Color := ⟨255, 255, 255, 255⟩

/-- Opaque black. -/
def blackColor : Color := ⟨0, 0, 0, 255⟩

/-- A static text layer with the given box and rotation, all other
attributes left to their defaults (left alignment, no wrap, no shadow,
default font and colour). -/
def staticTextLayer (x y w h rot : Int) (s : String) : PyDict :=
  [("type", .str "text"), ("field", .str "static"), ("text", .str s),
   ("x", .int x), ("y", .int y), ("width", .int w), ("height", .int h),
   ("rotation", .int rot)]

/-- An opaque filled rectangle shape layer. -/
def rectLayer (idv : String) (z x y w h : Int) (fill : String) : PyDict :=
  [("id", .str idv), ("type", .str "shape"), ("shape", .str "rectangle"),
   ("x", .int x), ("y", .int y), ("width", .int w), ("height", .int h),
   ("zIndex", .int z), ("fill", .str fill)]

/-- A template carrying only a front side with the given layer list;
canvas and background settings are left to the render defaults. -/
def layersTmpl (ds : List PyDict) : PyVal :=
  PyVal.dict [("front", PyVal.dict [("layers", PyVal.list (ds.map PyVal.dict))])]

/-- A template whose front side is malformed: its `layers` value is an
empty dict rather than a list of layers. -/
def tmplMalformedSide : PyVal :=
  PyVal.dict [("front", PyVal.dict [("layers", PyVal.dict [])])]

/-- A text layer whose colour string no colour parser accepts: its
renderer raises, which the compositor must swallow. -/
def badColorTextLayer : PyDict :=
  [("id", .str "t1"), ("type", .str "text"), ("field", .str "static"),
   ("text", .str "X"), ("color", .str "nope")]

/-- The integer behind a layer's sort key (the layers the paint-order
claims quantify over carry integer `zIndex` values; non-integers are
read as 0 only to make the function total). -/
def keyInt (v : PyVal) : Int :=
  match v with
  | .int n => n
  | _ => 0

/-- The integer sort key of a layer dict. -/
def zInt (d : PyDict) : Int := keyInt (zKeyV d)

/-- The paint-order relation: ascending `zIndex`. -/
def zRel (a b : PyDict) : Prop := zInt a ≤ zInt b

instance : DecidableRel zRel := fun _ _ => Int.decLe _ _

instance : IsTotal PyDict zRel := ⟨fun a b => Int.le_total (zInt a) (zInt b)⟩

instance : IsTrans PyDict zRel := ⟨fun _ _ _ => Int.le_trans⟩

/-- The same relation on key/dict pairs as `sorted` compares them. -/
def pairRel (a b : PyVal × PyDict) : Prop := keyInt a.1 ≤ keyInt b.1

instance : DecidableRel pairRel := fun _ _ => Int.decLe _ _

/-- `layer.get('visible', True)` as the loop tests it (line 552). -/
def layerVisible (d : PyDict) : Bool := pyTruthy (dget d "visible" (.bool true))

lemma dlookup_dset_self (k : String) (v : PyVal) (d : PyDict) :
    dlookup k (dset k v d) = some v := by
  induction d with
  | nil => simp [dset, dlookup]
  | cons kv rest ih =>
    by_cases h : k = kv.1
    · simp [dset, dlookup, h]
    · simp [dset, dlookup, h, ih]

lemma dlookup_dset_ne {k k' : String} (hk : k ≠ k') (v : PyVal) (d : PyDict) :
    dlookup k (dset k' v d) = dlookup k d := by
  induction d with
  | nil => simp [dset, dlookup, hk]
  | cons kv rest ih =>
    by_cases h : k' = kv.1
    · subst h
      simp [dset, dlookup, hk]
    · by_cases h2 : k = kv.1 <;> simp [dset, dlookup, h, h2, ih]

lemma dget_dset (k k' : String) (v : PyVal) (d : PyDict) (dflt : PyVal) :
    dget (dset k' v d) k dflt = if k = k' then v else dget d k dflt := by
  by_cases h : k = k'
  · subst h
    simp [dget, dlookup_dset_self]
  · simp [dget, dlookup_dset_ne h, h]

lemma ratTrunc_intCast (n : Int) : ratTrunc (n : ℚ) = n := by
  simp [ratTrunc, Rat.num_intCast, Rat.den_intCast]

lemma toIntE_intCast (n : Int) : toIntE (n : ℚ) = .ok n := by
  simp [toIntE, Rat.num_intCast, Rat.den_intCast]

/-- C3: for every text layer and data record, `field = "static"` makes
the resolved text the layer's literal text (empty when unset) with no
record lookup (the resolution is independent of the record); a
non-static field that is present resolves to the record value coerced
to string with the uppercase/lowercase flags applied; an absent field
falls back to the layer's literal text, and none of these paths is an
error. -/
theorem c3_text_data_binding (d : PyDict) (data : PyDict) :
    (dget d "field" (.str "") = .str "static" →
      resolveTextValue d data = .ok (dget d "text" (.str ""))
      ∧ ∀ data' : PyDict, resolveTextValue d data = resolveTextValue d data')
    ∧ (∀ f : String, dget d "field" (.str "") = .str f → f ≠ "static" →
        (∀ v : PyVal, dlookup f data = some v →
          resolvedText d data =
            .ok (.str (if pyTruthy (dget d "uppercase" PyVal.none) then strUpper (pyStr v)
              else if pyTruthy (dget d "lowercase" PyVal.none) then strLower (pyStr v)
              else pyStr v)))
        ∧ (dlookup f data = Option.none →
            resolveTextValue d data = .ok (.str (pyStr (dget d "text" (.str ""))))
            ∧ resolvedText d data =
              .ok (.str (if pyTruthy (dget d "uppercase" PyVal.none)
                then strUpper (pyStr (dget d "text" (.str "")))
                else if pyTruthy (dget d "lowercase" PyVal.none)
                then strLower (pyStr (dget d "text" (.str "")))
                else pyStr (dget d "text" (.str "")))))) := by
  constructor
  · intro h
    constructor
    · simp only [resolveTextValue]
      rw [h]
      simp [pyEqStr]
    · intro data'
      simp only [resolveTextValue]
      rw [h]
      simp [pyEqStr]
  · intro f hf hne
    constructor
    · intro v hv
      simp only [resolvedText, resolveTextValue]
      rw [hf]
      simp [pyEqStr, hne, dget, hv, applyCaseTransform]
      split_ifs <;> rfl
    · intro hv
      constructor
      · simp only [resolveTextValue]
        rw [hf]
        simp [pyEqStr, hne, dget, hv]
      · simp only [resolvedText, resolveTextValue]
        rw [hf]
        simp [pyEqStr, hne, dget, hv, applyCaseTransform]
        split_ifs <;> rfl

/-- Witness for C3 at a concrete layer and record: the dynamic field
`full_name` is present and resolves to its record value. -/
theorem c3_text_data_binding_witness :
    dget [("field", PyVal.str "full_name"), ("text", PyVal.str "fb")] "field" (.str "")
      = .str "full_name"
    ∧ ("full_name" ≠ "static")
    ∧ dlookup "full_name" [("full_name", PyVal.str "juan dela cruz")]
      = some (.str "juan dela cruz")
    ∧ resolvedText [("field", PyVal.str "full_name"), ("text", PyVal.str "fb")]
        [("full_name", PyVal.str "juan dela cruz")]
      = .ok (.str "juan dela cruz") :=
  ⟨rfl, by decide, rfl,
    Eq.trans
      (((c3_text_data_binding
          [("field", PyVal.str "full_name"), ("text", PyVal.str "fb")]
          [("full_name", PyVal.str "juan dela cruz")]).2 "full_name" rfl
        (by decide)).1 (.str "juan dela cruz") rfl)
      (by rfl)⟩

/-- Counterexample to C4 as stated: `get_font` keys the cache on the raw
weight string, so the equal-bold-bucket weights `"bold"` and `"700"`
with identical family and size produce different cache keys, and the
second call loads again instead of returning the cached resource (the
cache ends with two entries). -/
theorem c4_cache_key_counterexample :
    FontManager.cache_key "Arial" 16 "bold" ≠ FontManager.cache_key "Arial" 16 "700"
    ∧ FontManager.isBoldWeight "bold" = FontManager.isBoldWeight "700"
    ∧ ((FontManager.get_font envNull
        (FontManager.get_font envNull [] "Arial" 16 "bold").2 "Arial" 16 "700").2).length = 2 :=
  ⟨by decide, by decide, by rfl⟩

/-- C4 amended: the cache key is `(lower-cased family, size, raw weight
string)`.  Two `get_font` calls whose families are equal up to letter
case, with the same size and the *same weight string*, share the key:
the second call returns the first call's font from the cache and leaves
the cache unchanged.  Weights in the same bold-vs-regular bucket that
are spelled differently occupy distinct cache entries, although
`_load_font` buckets them identically and loads the same file. -/
theorem c4_cache_key_amended (env : Env) (cache : FontManager.Cache)
    (f1 f2 : String) (sz : Int) (wt : String) (hf : strLower f1 = strLower f2) :
    (FontManager.get_font env ((FontManager.get_font env cache f1 sz wt).2) f2 sz wt)
      = ((FontManager.get_font env cache f1 sz wt).1,
         (FontManager.get_font env cache f1 sz wt).2)
    ∧ ∀ fam w1 w2 : String, FontManager.isBoldWeight w1 = FontManager.isBoldWeight w2 →
        FontManager.load_font env fam sz w1 = FontManager.load_font env fam sz w2 := by
  have hkey : FontManager.cache_key f2 sz wt = FontManager.cache_key f1 sz wt := by
    simp [FontManager.cache_key, hf]
  constructor
  · simp only [FontManager.get_font, hkey]
    cases h : List.lookup (FontManager.cache_key f1 sz wt) cache with
    | some f => simp [h]
    | none =>
      have hload : FontManager.load_font env f2 sz wt = FontManager.load_font env f1 sz wt := by
        simp [FontManager.load_font, FontManager.load_font_core, hf]
      simp [h, List.lookup, hload]
  · intro fam w1 w2 hw
    simp [FontManager.load_font, hw]

/-- Witness for C4 amended at a concrete family pair and weight. -/
theorem c4_cache_key_amended_witness :
    (strLower "Arial" = strLower "arial")
    ∧ (FontManager.get_font envNull ((FontManager.get_font envNull [] "Arial" 16 "bold").2)
        "arial" 16 "bold")
      = ((FontManager.get_font envNull [] "Arial" 16 "bold").1,
         (FontManager.get_font envNull [] "Arial" 16 "bold").2) :=
  ⟨by decide, (c4_cache_key_amended envNull [] "Arial" "arial" 16 "bold" (by decide)).1⟩

lemma charsPrefix_of_append {p q l : List Char} (h : charsPrefix (p ++ q) l = true) :
    charsPrefix p l = true := by
  induction p generalizing l with
  | nil => simp [charsPrefix]
  | cons c cs ih =>
    cases l with
    | nil => simp [charsPrefix] at h
    | cons d ds =>
      simp [charsPrefix] at h ⊢
      exact ⟨h.1, ih h.2⟩

lemma charsPrefix_append_self (p q : List Char) : charsPrefix p (p ++ q) = true := by
  induction p with
  | nil => simp [charsPrefix]
  | cons c cs ih => simp [charsPrefix, ih]

lemma charsContains_cons {sub : List Char} (c : Char) {l : List Char}
    (h : charsContains sub l = true) : charsContains sub (c :: l) = true := by
  simp [charsContains, h]

lemma charsContains_of_charsPrefix {sub l : List Char} (h : charsPrefix sub l = true) :
    charsContains sub l = true := by
  cases l with
  | nil =>
    cases sub with
    | nil => simp [charsContains, charsPrefix]
    | cons c cs => simp [charsPrefix] at h
  | cons c cs => simp [charsContains, h]

lemma charsContains_of_prefix_mid {sub suf l : List Char} :
    ∀ pre, charsPrefix (pre ++ sub ++ suf) l = true → charsContains sub l = true := by
  intro pre
  induction pre generalizing l with
  | nil =>
    intro h
    simp only [List.nil_append] at h
    exact charsContains_of_charsPrefix (charsPrefix_of_append h)
  | cons c cs ih =>
    intro h
    cases l with
    | nil => simp [charsPrefix] at h
    | cons d ds =>
      simp [charsPrefix] at h
      refine charsContains_cons d (ih ?_)
      rw [← List.append_assoc] at h
      exact h.2

lemma charsContains_mid {pre sub suf l : List Char}
    (h : charsContains (pre ++ sub ++ suf) l = true) : charsContains sub l = true := by
  induction l with
  | nil =>
    cases hsub : sub with
    | nil => simp [charsContains, charsPrefix]
    | cons c cs =>
      exfalso
      subst hsub
      cases hp : pre with
      | nil =>
        subst hp
        simp [charsContains, charsPrefix] at h
      | cons d ds =>
        subst hp
        simp [charsContains, charsPrefix] at h
  | cons c cs ih =>
    simp only [charsContains, Bool.or_eq_true] at h
    rcases h with h | h
    · exact charsContains_of_prefix_mid pre h
    · exact charsContains_cons c (ih h)

/-- Counterexample to C7 as stated: the three-form scheme does not
govern static image-layer sources.  A bare leading-slash layer source is
used as-is instead of being reduced to its filename under the legacy
assets root, and an API-prefixed layer source is also used as-is instead
of mapping under the assets root — while the background resolver does
apply the claimed filename rule to the same path. -/
theorem c7_asset_path_counterexample :
    resolveImagePath "data/templates" "/logos/school.png" = "/logos/school.png"
    ∧ resolveImagePath "data/templates" "/logos/school.png"
      ≠ pathJoin "data/templates" (pathName "/logos/school.png")
    ∧ resolveImagePath "data/templates" "/api/templates/backgrounds/teacher/bg.png"
      = "/api/templates/backgrounds/teacher/bg.png"
    ∧ resolveBgPath "data/templates" "/logos/school.png" = "data/templates/school.png" := by
  refine ⟨by decide, by decide, by decide, by decide⟩

/-- C7 amended: the three accepted forms (API prefix under the assets
root, leading-slash reduced to a filename under the legacy root,
relative against the configured template folder) apply to side
background images only.  Static image-layer sources follow different
rules: an upload-style URL (containing `http` and `/uploads/`) maps its
trailing filename under `data/uploads`, any other absolute path is used
as-is, and a relative path resolves against the renderer's base path;
unresolved paths fail the existence probe and the layer is skipped. -/
theorem c7_asset_path_amended :
    (∀ tf rest : String, strStarts rest "/" = false →
      resolveBgPath tf ("/api/templates/backgrounds/" ++ rest) = "data/templates/" ++ rest)
    ∧ (∀ tf s : String, strStarts s "/" = true →
        strStarts s "/api/templates/backgrounds/" = false →
        resolveBgPath tf s = pathJoin "data/templates" (pathName s))
    ∧ (∀ tf s : String, strStarts s "/" = false → tf ≠ "" →
        resolveBgPath tf s = tf ++ "/" ++ s)
    ∧ (∀ bp s : String, (containsSub s "http" && containsSub s "uploads") = false →
        strStarts s "/" = true → resolveImagePath bp s = s)
    ∧ (∀ bp s : String, (containsSub s "http" && containsSub s "uploads") = false →
        strStarts s "/" = false → bp ≠ "" → resolveImagePath bp s = bp ++ "/" ++ s)
    ∧ (∀ bp s : String, containsSub s "http" = true → containsSub s "/uploads/" = true →
        resolveImagePath bp s = pathJoin "data/uploads" (lastAfter s "/uploads/")) := by
  refine ⟨?_, ?_, ?_, ?_, ?_, ?_⟩
  · intro tf rest h
    have hpre : strStarts ("/api/templates/backgrounds/" ++ rest)
        "/api/templates/backgrounds/" = true := by
      simp only [strStarts, String.data_append]
      exact charsPrefix_append_self _ _
    have hdrop : strDrop ("/api/templates/backgrounds/" ++ rest)
        "/api/templates/backgrounds/".data.length = rest := by
      simp only [strDrop, String.data_append, List.drop_left]
    simp only [resolveBgPath, hpre, if_true, hdrop]
    simp +decide [pathJoin, h]
  · intro tf s h hapi
    have hdt : pathJoin "data" "templates" = "data/templates" := by decide
    simp [resolveBgPath, hapi, h, hdt]
  · intro tf s h htf
    have hapi : strStarts s "/api/templates/backgrounds/" = false := by
      by_contra hc
      simp only [Bool.not_eq_false] at hc
      have hss : strStarts s "/" = true := by
        simp only [strStarts] at hc ⊢
        cases hs : s.data with
        | nil => rw [hs] at hc; simp [charsPrefix] at hc
        | cons c cs =>
          rw [hs] at hc
          simp only [charsPrefix, Bool.and_eq_true] at hc ⊢
          exact ⟨hc.1, trivial⟩
      rw [hss] at h
      exact absurd h (by decide)
    simp [resolveBgPath, hapi, h, pathJoin, htf]
  · intro bp s hc hs
    simp [resolveImagePath, hc, hs]
  · intro bp s hc hs hbp
    simp [resolveImagePath, hc, hs, pathJoin, hbp]
  · intro bp s hhttp hup
    have hups : containsSub s "uploads" = true := by
      simp only [containsSub] at hup ⊢
      rw [show (['/', 'u', 'p', 'l', 'o', 'a', 'd', 's', '/'] : List Char)
          = "/".data ++ "uploads".data ++ "/".data from by decide] at hup
      exact charsContains_mid hup
    simp [resolveImagePath, hhttp, hup, hups]

/-- Witness for C7 amended: the API-prefix background form at a concrete
category/filename. -/
theorem c7_asset_path_amended_witness :
    strStarts "teacher/bg.png" "/" = false
    ∧ resolveBgPath "data/templates" ("/api/templates/backgrounds/" ++ "teacher/bg.png")
      = "data/templates/" ++ "teacher/bg.png" :=
  ⟨by decide, c7_asset_path_amended.1 "data/templates" "teacher/bg.png" (by decide)⟩

lemma thumbSize_bounds (sw sh bw bh : Int)
    (hsw : 1 ≤ sw) (hsh : 1 ≤ sh) (hbw : 1 ≤ bw) (hbh : 1 ≤ bh) :
    (thumbSize sw sh bw bh).1 ≤ bw ∧ (thumbSize sw sh bw bh).2 ≤ bh
    ∧ (sw ≤ bw ∧ sh ≤ bh → thumbSize sw sh bw bh = (sw, sh))
    ∧ (¬ (sw ≤ bw ∧ sh ≤ bh) →
        (thumbSize sw sh bw bh).1 = bw ∨ (thumbSize sw sh bw bh).2 = bh) := by
  have hshq : (0 : ℚ) < (sh : ℚ) := by exact_mod_cast hsh.trans_lt' (by norm_num)
  have hbhq : (0 : ℚ) < (bh : ℚ) := by exact_mod_cast hbh.trans_lt' (by norm_num)
  have haq : (0 : ℚ) < (sw : ℚ) / (sh : ℚ) := by
    apply div_pos _ hshq
    exact_mod_cast hsw.trans_lt' (by norm_num)
  by_cases hfit : bw ≥ sw ∧ bh ≥ sh
  · simp only [thumbSize, if_pos hfit]
    refine ⟨hfit.1, hfit.2, ?_, fun hn => absurd ⟨hfit.1, hfit.2⟩ hn⟩
    simp
  · simp only [thumbSize, if_neg hfit]
    by_cases hbr : (bw : ℚ) / (bh : ℚ) ≥ (sw : ℚ) / (sh : ℚ)
    · simp only [if_pos hbr]
      have hmul : (bh : ℚ) * ((sw : ℚ) / (sh : ℚ)) ≤ (bw : ℚ) := by
        rw [ge_iff_le, le_div_iff₀ hbhq] at hbr
        linarith [hbr]
      have hceil : ⌈(bh : ℚ) * ((sw : ℚ) / (sh : ℚ))⌉ ≤ bw := by
        rw [Int.ceil_le]
        exact_mod_cast hmul
      have hfloor : ⌊(bh : ℚ) * ((sw : ℚ) / (sh : ℚ))⌋ ≤ bw :=
        le_trans (Int.floor_le_ceil _) hceil
      refine ⟨?_, le_refl bh, ?_, ?_⟩
      · simp only [roundAspect]
        exact max_le (by split_ifs <;> first | exact hceil | exact hfloor) hbw
      · intro hf
        exact absurd hf hfit
      · intro _
        simp
    · simp only [if_neg hbr]
      push_neg at hbr
      have hlt : (bw : ℚ) / ((sw : ℚ) / (sh : ℚ)) < (bh : ℚ) := by
        rw [div_lt_iff₀ haq]
        rw [div_lt_iff₀ hbhq] at hbr
        linarith [hbr]
      have hceil : ⌈(bw : ℚ) / ((sw : ℚ) / (sh : ℚ))⌉ ≤ bh := by
        rw [Int.ceil_le]
        exact_mod_cast hlt.le
      have hfloor : ⌊(bw : ℚ) / ((sw : ℚ) / (sh : ℚ))⌋ ≤ bh :=
        le_trans (Int.floor_le_ceil _) hceil
      refine ⟨le_refl bw, ?_, ?_, ?_⟩
      · simp only [roundAspect]
        exact max_le (by split_ifs <;> first | exact hceil | exact hfloor) hbh
      · intro hf
        exact absurd hf hfit
      · intro _
        simp

example : thumbSize 400 300 100 100 = (100, 75) := by
  norm_num [thumbSize, roundAspect]


lemma containFit_thumb_w (env : Env) (img : Img) (w h : Int) :
    (if thumbSize img.w img.h w h = (img.w, img.h) then img
      else resizeImg env img (thumbSize img.w img.h w h).1 (thumbSize img.w img.h w h).2).w
      = (thumbSize img.w img.h w h).1 := by
  split_ifs with hts
  · rw [hts]
  · rfl

lemma containFit_thumb_h (env : Env) (img : Img) (w h : Int) :
    (if thumbSize img.w img.h w h = (img.w, img.h) then img
      else resizeImg env img (thumbSize img.w img.h w h).1 (thumbSize img.w img.h w h).2).h
      = (thumbSize img.w img.h w h).2 := by
  split_ifs with hts
  · rw [hts]
  · rfl

lemma containFit_outside (env : Env) (img : Img) (w h : Int) (i j : Int)
    (hout : ¬ ((w - (thumbSize img.w img.h w h).1).fdiv 2 ≤ i
        ∧ i < (w - (thumbSize img.w img.h w h).1).fdiv 2 + (thumbSize img.w img.h w h).1
        ∧ (h - (thumbSize img.w img.h w h).2).fdiv 2 ≤ j
        ∧ j < (h - (thumbSize img.w img.h w h).2).fdiv 2 + (thumbSize img.w img.h w h).2)) :
    (containFit env img w h).px i j = clearColor := by
  simp only [containFit, pasteMask, mkImg, containFit_thumb_w, containFit_thumb_h]
  rw [if_neg hout]

/-- C8 amended: object-fit contain scales the source *down* preserving
aspect ratio when it exceeds the box — the result fits inside the box
and touches it on at least one axis — but a source already fitting
inside the box is left at its native size (`thumbnail` does not
upscale); in both cases the result is centred on transparent padding:
the contain buffer has exactly the box size and every pixel outside the
centred thumbnail rectangle is fully transparent. -/
theorem c8_contain_amended (env : Env) (img : Img) (w h : Int)
    (hsw : 1 ≤ img.w) (hsh : 1 ≤ img.h) (hbw : 1 ≤ w) (hbh : 1 ≤ h) :
    (containFit env img w h).w = w ∧ (containFit env img w h).h = h
    ∧ (thumbSize img.w img.h w h).1 ≤ w ∧ (thumbSize img.w img.h w h).2 ≤ h
    ∧ (img.w ≤ w ∧ img.h ≤ h → thumbSize img.w img.h w h = (img.w, img.h))
    ∧ (¬ (img.w ≤ w ∧ img.h ≤ h) →
        (thumbSize img.w img.h w h).1 = w ∨ (thumbSize img.w img.h w h).2 = h)
    ∧ ∀ i j : Int,
        ¬ ((w - (thumbSize img.w img.h w h).1).fdiv 2 ≤ i
          ∧ i < (w - (thumbSize img.w img.h w h).1).fdiv 2 + (thumbSize img.w img.h w h).1
          ∧ (h - (thumbSize img.w img.h w h).2).fdiv 2 ≤ j
          ∧ j < (h - (thumbSize img.w img.h w h).2).fdiv 2 + (thumbSize img.w img.h w h).2) →
        (containFit env img w h).px i j = clearColor := by
  obtain ⟨h1, h2, h3, h4⟩ := thumbSize_bounds img.w img.h w h hsw hsh hbw hbh
  exact ⟨rfl, rfl, h1, h2, h3, h4, fun i j hout => containFit_outside env img w h i j hout⟩

/-- Witness for C8 amended at a 400×300 source in a 100×100 box: it is
scaled to touch the box width, and a concrete pixel above the centred
band is transparent. -/
theorem c8_contain_amended_witness :
    ((1 : Int) ≤ (mkImg 400 300 whiteColor).w)
    ∧ ¬ ((mkImg 400 300 whiteColor).w ≤ 100 ∧ (mkImg 400 300 whiteColor).h ≤ 100)
    ∧ ((thumbSize (mkImg 400 300 whiteColor).w (mkImg 400 300 whiteColor).h 100 100).1 = 100
        ∨ (thumbSize (mkImg 400 300 whiteColor).w (mkImg 400 300 whiteColor).h 100 100).2 = 100)
    ∧ (containFit envNull (mkImg 400 300 whiteColor) 100 100).px 0 0 = clearColor := by
  have hmain := c8_contain_amended envNull (mkImg 400 300 whiteColor) 100 100
    (by norm_num [mkImg]) (by norm_num [mkImg]) (by norm_num) (by norm_num)
  refine ⟨by norm_num [mkImg], by norm_num [mkImg], ?_, ?_⟩
  · exact hmain.2.2.2.2.2.1 (by norm_num [mkImg])
  · refine hmain.2.2.2.2.2.2 0 0 ?_
    norm_num [mkImg, thumbSize, roundAspect]
    decide

lemma bindE_ok {α β : Type} (a : α) (f : α → Except PyExc β) :
    (Except.ok a >>= f) = f a := rfl

lemma bindE_err {α β : Type} (e : PyExc) (f : α → Except PyExc β) :
    ((Except.error e : Except PyExc α) >>= f) = .error e := rfl

lemma pyGetD_dict (kvs : PyDict) (k : String) (dflt : PyVal) :
    pyGetD (.dict kvs) k dflt = .ok (dget kvs k dflt) := rfl

lemma pyGetD_none (k : String) (dflt : PyVal) :
    pyGetD PyVal.none k dflt = .error .attributeError := rfl

lemma pyGetD_bool (b : Bool) (k : String) (dflt : PyVal) :
    pyGetD (.bool b) k dflt = .error .attributeError := rfl

lemma pyGetD_int (n : Int) (k : String) (dflt : PyVal) :
    pyGetD (.int n) k dflt = .error .attributeError := rfl

lemma pyGetD_float (q : ℚ) (k : String) (dflt : PyVal) :
    pyGetD (.float q) k dflt = .error .attributeError := rfl

lemma pyGetD_str (s : String) (k : String) (dflt : PyVal) :
    pyGetD (.str s) k dflt = .error .attributeError := rfl

lemma pyGetD_list (xs : List PyVal) (k : String) (dflt : PyVal) :
    pyGetD (.list xs) k dflt = .error .attributeError := rfl

lemma pyGetD_err {v : PyVal} (hnd : ∀ kvs, v ≠ PyVal.dict kvs) (k : String) (dflt : PyVal) :
    pyGetD v k dflt = .error .attributeError := by
  cases v with
  | dict kvs2 => exact absurd rfl (hnd kvs2)
  | none => rfl
  | bool b => rfl
  | int n => rfl
  | float q => rfl
  | str s => rfl
  | list xs => rfl

/-- Counterexample to C2 as stated: a template whose requested side is
present but malformed — its `layers` value is an empty dict, not a list
of layers — renders without raising: `sorted` iterates the empty dict
to an empty layer list and `render` returns the blank 591×1004
background card as a successful result. -/
theorem c2_missing_template_counterexample :
    tmplMalformedSide = PyVal.dict [("front", PyVal.dict [("layers", PyVal.dict [])])]
    ∧ (TemplateRenderer.render envNull "data/templates" tmplMalformedSide [] Option.none
        "front").map (fun r => (r.1.w, r.1.h)) = .ok (591, 1004)
    ∧ (TemplateRenderer.render envNull "data/templates" tmplMalformedSide [] Option.none
        "front").isOk = true :=
  ⟨rfl, by rfl, by rfl⟩

/-- C2 amended: when no template is provided (`None`), `render` raises
`AttributeError` at the first attribute access; when the requested
side's value is present but not a dict, `render` raises as well (at
`side_data.get` or earlier in the canvas prelude).  However a malformed
side whose `layers` value is an empty non-list iterable (such as an
empty dict) is *not* rejected: the sort iterates it to an empty list
and a blank background-only card is returned silently (see the
counterexample). -/
theorem c2_missing_template_amended (env : Env) (tf : String) (data : PyDict) (photo : Option Img)
    (side : String) :
    TemplateRenderer.render env tf PyVal.none data photo side = .error .attributeError
    ∧ (∀ tkvs : PyDict, ∀ v : PyVal,
        dlookup side tkvs = some v → (∀ kvs, v ≠ PyVal.dict kvs) →
        ∃ e, TemplateRenderer.render env tf (.dict tkvs) data photo side = .error e) := by
  constructor
  · rfl
  · intro tkvs v hv hnd
    have hside : dget tkvs side (.dict []) = v := by simp [dget, hv]
    cases hcv : dget tkvs "canvas" (.dict []) with
    | dict ckvs =>
      cases hsw : pySizeInt (dget ckvs "width" (.int 591)) with
      | error e =>
        exact ⟨e, by
          simp only [TemplateRenderer.render, pyGetD_dict, hcv, hsw, bindE_ok, bindE_err]⟩
      | ok w =>
        cases hsh : pySizeInt (dget ckvs "height" (.int 1004)) with
        | error e =>
          exact ⟨e, by
            simp only [TemplateRenderer.render, pyGetD_dict, hcv, hsw, hsh, bindE_ok, bindE_err]⟩
        | ok h =>
          cases hbv : dget ckvs "backgroundColor" (.str "#FFFFFF") with
          | str s =>
            cases hpc : parseColor s with
            | error e =>
              exact ⟨e, by
                simp only [TemplateRenderer.render, pyGetD_dict, hcv, hsw, hsh, hbv, hpc,
                  bindE_ok, bindE_err]⟩
            | ok bg =>
              exact ⟨.attributeError, by
                simp only [TemplateRenderer.render, pyGetD_dict, hcv, hsw, hsh, hbv, hpc,
                  hside, pyGetD_err hnd, bindE_ok, bindE_err]⟩
          | none =>
            exact ⟨.valueError, by
              simp only [TemplateRenderer.render, pyGetD_dict, hcv, hsw, hsh, hbv,
                bindE_ok, bindE_err]⟩
          | bool b =>
            exact ⟨.valueError, by
              simp only [TemplateRenderer.render, pyGetD_dict, hcv, hsw, hsh, hbv,
                bindE_ok, bindE_err]⟩
          | int n =>
            exact ⟨.valueError, by
              simp only [TemplateRenderer.render, pyGetD_dict, hcv, hsw, hsh, hbv,
                bindE_ok, bindE_err]⟩
          | float q =>
            exact ⟨.valueError, by
              simp only [TemplateRenderer.render, pyGetD_dict, hcv, hsw, hsh, hbv,
                bindE_ok, bindE_err]⟩
          | list xs =>
            exact ⟨.valueError, by
              simp only [TemplateRenderer.render, pyGetD_dict, hcv, hsw, hsh, hbv,
                bindE_ok, bindE_err]⟩
          | dict bkvs =>
            exact ⟨.valueError, by
              simp only [TemplateRenderer.render, pyGetD_dict, hcv, hsw, hsh, hbv,
                bindE_ok, bindE_err]⟩
    | none =>
      exact ⟨.attributeError, by
        simp only [TemplateRenderer.render, pyGetD_dict, hcv, pyGetD_none, bindE_ok, bindE_err]⟩
    | bool b =>
      exact ⟨.attributeError, by
        simp only [TemplateRenderer.render, pyGetD_dict, hcv, pyGetD_bool, bindE_ok, bindE_err]⟩
    | int n =>
      exact ⟨.attributeError, by
        simp only [TemplateRenderer.render, pyGetD_dict, hcv, pyGetD_int, bindE_ok, bindE_err]⟩
    | float q =>
      exact ⟨.attributeError, by
        simp only [TemplateRenderer.render, pyGetD_dict, hcv, pyGetD_float, bindE_ok, bindE_err]⟩
    | str s =>
      exact ⟨.attributeError, by
        simp only [TemplateRenderer.render, pyGetD_dict, hcv, pyGetD_str, bindE_ok, bindE_err]⟩
    | list xs =>
      exact ⟨.attributeError, by
        simp only [TemplateRenderer.render, pyGetD_dict, hcv, pyGetD_list, bindE_ok, bindE_err]⟩

/-- Witness for C2 amended at a concrete template whose `front` value is
the string `"oops"`. -/
theorem c2_missing_template_amended_witness :
    dlookup "front" [("front", PyVal.str "oops")] = some (.str "oops")
    ∧ ∃ e, TemplateRenderer.render envNull "data/templates"
        (.dict [("front", PyVal.str "oops")]) [] Option.none "front" = .error e :=
  ⟨rfl, (c2_missing_template_amended envNull "data/templates" [] Option.none "front").2
    [("front", PyVal.str "oops")] (.str "oops") rfl
    (fun _ h => by cases h)⟩

/-- C1: the render loop tolerates any per-layer failure.  Processing a
layer list decomposes around every layer, so the layers after a failing
one are still processed from the state the failure left (first
conjunct); a visible layer whose dispatched renderer raises leaves the
card untouched and appends a log entry carrying the layer's type and
id (second conjunct); a visible layer with an unrecognised type tag
likewise only logs a warning with its type and id (third conjunct).
The loop is a total function, so a finished bitmap is always returned
once the structural prelude has succeeded. -/
theorem c1_per_layer_failures_tolerated (env : Env) (tf : String) (data : PyDict)
    (photo : Option Img) (cw : Int) :
    (∀ (card : Img) (logs : List LogEntry) (pre : List PyDict) (d : PyDict)
        (post : List PyDict),
      renderLayersLoop env tf data photo cw card logs (pre ++ d :: post)
        = (let st1 := renderLayersLoop env tf data photo cw card logs pre
           let st2 := layerStep env tf data photo cw st1 d
           renderLayersLoop env tf data photo cw st2.1 st2.2 post))
    ∧ (∀ (card : Img) (logs : List LogEntry) (d : PyDict) (e : PyExc),
        pyTruthy (dget d "visible" (.bool true)) = true →
        dispatchLayer env tf data photo cw card d = some (.error e) →
        layerStep env tf data photo cw (card, logs) d
          = (card, logs ++ [LogEntry.layerFailed (dget d "type" PyVal.none)
              (dget d "id" PyVal.none) e]))
    ∧ (∀ (card : Img) (logs : List LogEntry) (d : PyDict),
        pyTruthy (dget d "visible" (.bool true)) = true →
        dispatchLayer env tf data photo cw card d = Option.none →
        layerStep env tf data photo cw (card, logs) d
          = (card, logs ++ [LogEntry.unknownLayerType (dget d "type" PyVal.none)
              (dget d "id" PyVal.none)])) := by
  refine ⟨?_, ?_, ?_⟩
  · intro card logs pre d post
    simp [renderLayersLoop, List.foldl_append]
  · intro card logs d e hvis hdisp
    simp [layerStep, hvis, hdisp]
  · intro card logs d hvis hdisp
    simp [layerStep, hvis, hdisp]

/-- Witness for C1: a text layer with an unparsable colour makes its
renderer raise `ValueError`; the loop swallows it and logs the layer's
type and id, and an unknown `group` tag is logged as a warning. -/
theorem c1_per_layer_failures_tolerated_witness :
    pyTruthy (dget badColorTextLayer "visible" (.bool true)) = true
    ∧ dispatchLayer envNull "f" [] Option.none 591 (mkImg 10 10 whiteColor) badColorTextLayer
      = some (.error .valueError)
    ∧ layerStep envNull "f" [] Option.none 591 (mkImg 10 10 whiteColor, []) badColorTextLayer
      = (mkImg 10 10 whiteColor,
         [LogEntry.layerFailed (.str "text") (.str "t1") .valueError])
    ∧ pyTruthy (dget [("id", PyVal.str "g1"), ("type", PyVal.str "group")] "visible"
        (.bool true)) = true
    ∧ dispatchLayer envNull "f" [] Option.none 591 (mkImg 10 10 whiteColor)
        [("id", PyVal.str "g1"), ("type", PyVal.str "group")] = Option.none
    ∧ layerStep envNull "f" [] Option.none 591 (mkImg 10 10 whiteColor, [])
        [("id", PyVal.str "g1"), ("type", PyVal.str "group")]
      = (mkImg 10 10 whiteColor,
         [LogEntry.unknownLayerType (.str "group") (.str "g1")]) :=
  ⟨rfl, by rfl,
    (c1_per_layer_failures_tolerated envNull "f" [] Option.none 591).2.1
      (mkImg 10 10 whiteColor) [] badColorTextLayer .valueError rfl (by rfl),
    rfl, by rfl,
    (c1_per_layer_failures_tolerated envNull "f" [] Option.none 591).2.2
      (mkImg 10 10 whiteColor) [] [("id", PyVal.str "g1"), ("type", PyVal.str "group")]
      rfl (by rfl)⟩

lemma keyedLayers_map (ds : List PyDict) :
    keyedLayers (ds.map PyVal.dict) = .ok (ds.map fun d => (zKeyV d, d)) := by
  induction ds with
  | nil => rfl
  | cons d rest ih => simp [keyedLayers, ih, bindE_ok]

lemma orderedInsertE_int (a : PyVal × PyDict) (l : List (PyVal × PyDict))
    (ha : ∃ n : Int, a.1 = .int n) (hl : ∀ p ∈ l, ∃ n : Int, p.1 = .int n) :
    orderedInsertE a l = .ok (List.orderedInsert pairRel a l) := by
  induction l with
  | nil => rfl
  | cons b bs ih =>
    obtain ⟨na, hna⟩ := ha
    obtain ⟨nb, hnb⟩ := hl b (List.mem_cons_self b bs)
    have hle : pyLeE a.1 b.1 = .ok (decide (na ≤ nb)) := by
      rw [hna, hnb]
      rfl
    have hrel : pairRel a b ↔ na ≤ nb := by
      simp [pairRel, keyInt, hna, hnb]
    simp only [orderedInsertE, hle, bindE_ok, List.orderedInsert]
    by_cases h : na ≤ nb
    · rw [if_pos (by simpa using h), if_pos (hrel.mpr h)]
    · rw [if_neg (by simpa using h), if_neg (fun hc => h (hrel.mp hc)),
        ih (fun p hp => hl p (List.mem_cons_of_mem b hp)), bindE_ok]

lemma insertionSortE_int (l : List (PyVal × PyDict))
    (hl : ∀ p ∈ l, ∃ n : Int, p.1 = .int n) :
    insertionSortE l = .ok (List.insertionSort pairRel l) := by
  induction l with
  | nil => rfl
  | cons a as ih =>
    simp only [insertionSortE, List.insertionSort]
    rw [ih (fun p hp => hl p (List.mem_cons_of_mem a hp)), bindE_ok]
    exact orderedInsertE_int a _ (hl a (List.mem_cons_self a as))
      (fun p hp => hl p (List.mem_cons_of_mem a ((List.mem_insertionSort pairRel).mp hp)))

lemma sortedLayers_ok (ds : List PyDict) (hz : ∀ d ∈ ds, ∃ n : Int, zKeyV d = .int n) :
    sortedLayers (.list (ds.map PyVal.dict)) = .ok (List.insertionSort zRel ds) := by
  have hkeys : ∀ p ∈ ds.map (fun d => (zKeyV d, d)), ∃ n : Int, p.1 = .int n := by
    intro p hp
    obtain ⟨d, hd, rfl⟩ := List.mem_map.mp hp
    exact hz d hd
  simp only [sortedLayers, pyIterElems, bindE_ok, keyedLayers_map]
  rw [insertionSortE_int _ hkeys, bindE_ok]
  have hmap : (List.insertionSort pairRel (ds.map fun d => (zKeyV d, d))).map Prod.snd
      = List.insertionSort zRel ((ds.map fun d => (zKeyV d, d)).map Prod.snd) := by
    apply List.map_insertionSort pairRel zRel Prod.snd
    intro a ha b hb
    obtain ⟨da, -, rfl⟩ := List.mem_map.mp ha
    obtain ⟨db, -, rfl⟩ := List.mem_map.mp hb
    exact Iff.rfl
  have hid : ∀ es : List PyDict, List.map (Prod.snd ∘ fun d => (zKeyV d, d)) es = es := by
    intro es
    induction es with
    | nil => rfl
    | cons e tl ih => simp [ih]
  rw [hmap, List.map_map, hid]

lemma orderedInsert_front {a : PyDict} {l : List PyDict} (h : ∀ c ∈ l, zRel a c) :
    List.orderedInsert zRel a l = a :: l := by
  cases l with
  | nil => rfl
  | cons b bs => exact List.orderedInsert_of_le zRel bs (h b (List.mem_cons_self b bs))

lemma zRel_trans {a b c : PyDict} (h1 : zRel a b) (h2 : zRel b c) : zRel a c :=
  le_trans h1 h2

lemma zRel_total_of_not {a b : PyDict} (h : ¬ zRel a b) : zRel b a :=
  le_of_lt (lt_of_not_le h)

lemma filter_orderedInsert (p : PyDict → Bool) (a : PyDict) :
    ∀ l : List PyDict, l.Sorted zRel →
      (List.orderedInsert zRel a l).filter p
        = if p a then List.orderedInsert zRel a (l.filter p) else l.filter p := by
  intro l
  induction l with
  | nil =>
    intro _
    by_cases hpa : p a
    · rw [List.orderedInsert, List.filter_cons_of_pos hpa, if_pos hpa, List.filter_nil,
        List.orderedInsert]
    · rw [List.orderedInsert, List.filter_cons_of_neg hpa, if_neg hpa, List.filter_nil]
  | cons b bs ih =>
    intro hs
    rw [List.sorted_cons] at hs
    obtain ⟨hb, hbs⟩ := hs
    by_cases hab : zRel a b
    · rw [List.orderedInsert, if_pos hab]
      by_cases hpa : p a
      · by_cases hpb : p b
        · rw [List.filter_cons_of_pos hpa, List.filter_cons_of_pos hpb, if_pos hpa,
            List.orderedInsert, if_pos hab]
        · rw [List.filter_cons_of_pos hpa, List.filter_cons_of_neg hpb, if_pos hpa,
            orderedInsert_front
              (fun c hc => zRel_trans hab (hb c (List.mem_of_mem_filter hc)))]
      · by_cases hpb : p b
        · rw [List.filter_cons_of_neg hpa, List.filter_cons_of_pos hpb, if_neg hpa]
        · rw [List.filter_cons_of_neg hpa, List.filter_cons_of_neg hpb, if_neg hpa]
    · rw [List.orderedInsert, if_neg hab]
      by_cases hpb : p b
      · rw [List.filter_cons_of_pos hpb, ih hbs]
        by_cases hpa : p a
        · rw [if_pos hpa, if_pos hpa, List.filter_cons_of_pos hpb, List.orderedInsert,
            if_neg hab]
        · rw [if_neg hpa, if_neg hpa, List.filter_cons_of_pos hpb]
      · rw [List.filter_cons_of_neg hpb, ih hbs, List.filter_cons_of_neg hpb]

lemma filter_insertionSort (p : PyDict → Bool) (l : List PyDict) :
    (List.insertionSort zRel l).filter p = List.insertionSort zRel (l.filter p) := by
  induction l with
  | nil => rfl
  | cons a as ih =>
    rw [List.insertionSort,
      filter_orderedInsert p a _ (List.sorted_insertionSort zRel as), ih]
    by_cases hpa : p a
    · rw [if_pos hpa, List.filter_cons_of_pos hpa, List.insertionSort]
    · rw [if_neg hpa, List.filter_cons_of_neg hpa]

lemma filter_zeq_orderedInsert (q : PyDict → Bool) (v : Int)
    (hq : ∀ d, q d = (zInt d == v)) (a : PyDict) :
    ∀ l : List PyDict,
      (List.orderedInsert zRel a l).filter q
        = if q a = true then a :: l.filter q else l.filter q := by
  intro l
  induction l with
  | nil =>
    by_cases hza : q a = true
    · rw [List.orderedInsert, List.filter_cons_of_pos hza, if_pos hza, List.filter_nil]
    · rw [List.orderedInsert, List.filter_cons_of_neg hza, if_neg hza, List.filter_nil]
  | cons b bs ih =>
    by_cases hab : zRel a b
    · rw [List.orderedInsert, if_pos hab]
      by_cases hza : q a = true
      · rw [List.filter_cons_of_pos hza, if_pos hza]
      · rw [List.filter_cons_of_neg hza, if_neg hza]
    · rw [List.orderedInsert, if_neg hab]
      by_cases hza : q a = true
      · have hzb : ¬ (q b = true) := by
          have hlt : zInt b < zInt a := lt_of_not_le hab
          rw [hq] at hza ⊢
          simp only [beq_iff_eq] at hza ⊢
          omega
        rw [List.filter_cons_of_neg hzb, ih, if_pos hza, if_pos hza,
          List.filter_cons_of_neg hzb]
      · by_cases hzb : q b = true
        · rw [List.filter_cons_of_pos hzb, ih, if_neg hza, if_neg hza,
            List.filter_cons_of_pos hzb]
        · rw [List.filter_cons_of_neg hzb, ih, if_neg hza, if_neg hza,
            List.filter_cons_of_neg hzb]

lemma filter_zeq_insertionSort (q : PyDict → Bool) (v : Int)
    (hq : ∀ d, q d = (zInt d == v)) (l : List PyDict) :
    (List.insertionSort zRel l).filter q = l.filter q := by
  induction l with
  | nil => rfl
  | cons a as ih =>
    rw [List.insertionSort, filter_zeq_orderedInsert q v hq a _, ih]
    by_cases hza : q a = true
    · rw [if_pos hza, List.filter_cons_of_pos hza]
    · rw [if_neg hza, List.filter_cons_of_neg hza]

lemma renderLayersLoop_filter_visible (env : Env) (tf : String) (data : PyDict)
    (photo : Option Img) (cw : Int) (st : Img × List LogEntry) (ls : List PyDict) :
    ls.foldl (layerStep env tf data photo cw) st
      = (ls.filter layerVisible).foldl (layerStep env tf data photo cw) st := by
  induction ls generalizing st with
  | nil => rfl
  | cons d ds ih =>
    by_cases hv : layerVisible d = true
    · rw [List.filter_cons_of_pos hv, List.foldl_cons, List.foldl_cons, ih]
    · have hstep : layerStep env tf data photo cw st d = st := by
        simp only [layerVisible] at hv
        simp [layerStep, hv]
      rw [List.filter_cons_of_neg hv, List.foldl_cons, hstep, ih]

lemma ratTrunc_add_intCast (x w : Int) : ratTrunc ((x : ℚ) + (w : ℚ)) = x + w := by
  rw [← Int.cast_add, ratTrunc_intCast]

lemma rect_step (env : Env) (tf : String) (data : PyDict) (photo : Option Img) (cw : Int)
    (st : Img × List LogEntry) (idv : String) (z x y w h : Int) (c : String) (v : Color)
    (hp : parseColor c = .ok v) (hw : 0 ≤ w) (hh : 0 ≤ h) :
    layerStep env tf data photo cw st (rectLayer idv z x y w h c)
      = (⟨st.1.w, st.1.h, fun i j =>
          if x ≤ i ∧ i ≤ x + w ∧ y ≤ j ∧ j ≤ y + h then v else st.1.px i j⟩, st.2) := by
  have hnd : ¬ (w < 0 ∨ h < 0) := by omega
  simp only [layerStep, dispatchLayer, rectLayer, render_shape_layer, dget, dlookup,
    pyEqStr, pyTruthy, pyArith, optColor, hp, bindE_ok, bindE_err, drawRect,
    ratTrunc_intCast, ratTrunc_add_intCast, String.reduceEq, reduceIte, Option.getD,
    decide_True, decide_False, Bool.false_eq_true, not_true, ite_false, ite_true]
  norm_num
  rw [if_neg hnd]

lemma parseColor_white : parseColor "#FFFFFF" = .ok whiteColor := by rfl

lemma zKeyV_rectLayer (idv : String) (z x y w h : Int) (c : String) :
    zKeyV (rectLayer idv z x y w h c) = .int z := by rfl

lemma insertionSort_pair (a b : PyDict) :
    List.insertionSort zRel [a, b] = if zRel a b then [a, b] else [b, a] := by
  by_cases hab : zRel a b
  · rw [if_pos hab]
    simp [List.insertionSort, List.orderedInsert, hab]
  · rw [if_neg hab]
    simp [List.insertionSort, List.orderedInsert, hab]

lemma render_layersTmpl (env : Env) (tf : String) (data : PyDict) (photo : Option Img)
    (ds : List PyDict) (hz : ∀ d ∈ ds, ∃ n : Int, zKeyV d = .int n) (hne : ds ≠ []) :
    TemplateRenderer.render env tf (layersTmpl ds) data photo "front"
      = .ok (renderLayersLoop env tf data photo 591 (mkImg 591 1004 whiteColor) []
          (List.insertionSort zRel ds)) := by
  have htr : pyTruthy (PyVal.list (ds.map PyVal.dict)) = true := by
    cases ds with
    | nil => exact absurd rfl hne
    | cons d tl => rfl
  simp only [TemplateRenderer.render, layersTmpl, pyGetD_dict, bindE_ok, bindE_err,
    dget, dlookup, String.reduceEq, reduceIte, Option.getD, pyTruthy, parseColor_white,
    sortedLayers_ok ds hz, htr, if_false, if_true, List.append_nil, List.nil_append,
    Bool.not_true, ite_true, ite_false]
  have hie : (List.map PyVal.dict ds).isEmpty = false := by
    cases ds with
    | nil => exact absurd rfl hne
    | cons d tl => rfl
  simp only [pySizeInt, bindE_ok, hie, Bool.not_false, Bool.false_eq_true, if_true, if_false,
    ite_true, ite_false, List.append_nil, List.nil_append]
  norm_num [bindE_ok]

/-- C5: the side's layers are stably sorted by ascending integer
`zIndex` and painted in that order.  First conjunct, for every layer
list with integer keys: the monadic sort of the render loop equals
insertion sort by `zIndex` (a stable sort), its output is sorted and a
permutation of the input, layers of equal `zIndex` keep their storage
order (the filter at each key value is unchanged), and invisible layers
never affect the paint loop.  Second conjunct: for two overlapping
opaque rectangles with `z1 < z2`, in either storage order, the rendered
card is produced successfully and every overlap pixel carries the
higher-`zIndex` layer's colour. -/
theorem c5_paint_order
    (env : Env) (tf : String) (data : PyDict) (photo : Option Img)
    (z1 z2 x1 y1 w1 h1 x2 y2 w2 h2 : Int) (c1 c2 : String) (v1 v2 : Color)
    (hz12 : z1 < z2)
    (hp1 : parseColor c1 = .ok v1) (hp2 : parseColor c2 = .ok v2)
    (hw1 : 0 ≤ w1) (hh1 : 0 ≤ h1) (hw2 : 0 ≤ w2) (hh2 : 0 ≤ h2)
    (i j : Int)
    (hin1 : x1 ≤ i ∧ i ≤ x1 + w1 ∧ y1 ≤ j ∧ j ≤ y1 + h1)
    (hin2 : x2 ≤ i ∧ i ≤ x2 + w2 ∧ y2 ≤ j ∧ j ≤ y2 + h2) :
    (∀ ds : List PyDict, (∀ d ∈ ds, ∃ n : Int, zKeyV d = .int n) →
        sortedLayers (.list (ds.map PyVal.dict)) = .ok (List.insertionSort zRel ds)
        ∧ (List.insertionSort zRel ds).Sorted zRel
        ∧ (List.insertionSort zRel ds).Perm ds
        ∧ (∀ v : Int, (List.insertionSort zRel ds).filter (fun d => zInt d == v)
            = ds.filter (fun d => zInt d == v))
        ∧ (∀ (card : Img) (logs : List LogEntry),
            renderLayersLoop env tf data photo 591 card logs (List.insertionSort zRel ds)
              = renderLayersLoop env tf data photo 591 card logs
                  ((List.insertionSort zRel ds).filter layerVisible)))
    ∧ (∀ a b : PyDict,
        ((a = rectLayer "lo" z1 x1 y1 w1 h1 c1 ∧ b = rectLayer "hi" z2 x2 y2 w2 h2 c2)
          ∨ (a = rectLayer "hi" z2 x2 y2 w2 h2 c2 ∧ b = rectLayer "lo" z1 x1 y1 w1 h1 c1)) →
        ∃ out : Img × List LogEntry,
          TemplateRenderer.render env tf (layersTmpl [a, b]) data photo "front" = .ok out
          ∧ out.1.px i j = v2) := by
  constructor
  · intro ds hz
    exact ⟨sortedLayers_ok ds hz, List.sorted_insertionSort zRel ds,
      List.perm_insertionSort zRel ds,
      fun v => filter_zeq_insertionSort (fun d => zInt d == v) v (fun _ => rfl) ds,
      fun card logs => renderLayersLoop_filter_visible env tf data photo 591 (card, logs) _⟩
  · intro a b hab
    have hzk : ∀ d ∈ [a, b], ∃ n : Int, zKeyV d = .int n := by
      intro d hd
      have hda : d = a ∨ d = b := by simpa using hd
      rcases hab with ⟨ha, hb⟩ | ⟨ha, hb⟩ <;> rcases hda with rfl | rfl <;>
        simp [ha, hb, zKeyV_rectLayer]
    have hsorted : List.insertionSort zRel [a, b]
        = [rectLayer "lo" z1 x1 y1 w1 h1 c1, rectLayer "hi" z2 x2 y2 w2 h2 c2] := by
      rcases hab with ⟨ha, hb⟩ | ⟨ha, hb⟩ <;> subst ha <;> subst hb
      · rw [insertionSort_pair, if_pos]
        show zInt _ ≤ zInt _
        rw [zInt, zInt, zKeyV_rectLayer, zKeyV_rectLayer]
        exact le_of_lt hz12
      · rw [insertionSort_pair, if_neg]
        show ¬ zInt _ ≤ zInt _
        rw [zInt, zInt, zKeyV_rectLayer, zKeyV_rectLayer]
        simp [keyInt]
        omega
    refine ⟨_, render_layersTmpl env tf data photo [a, b] hzk (by simp), ?_⟩
    rw [hsorted]
    show (renderLayersLoop env tf data photo 591 (mkImg 591 1004 whiteColor) []
        [rectLayer "lo" z1 x1 y1 w1 h1 c1, rectLayer "hi" z2 x2 y2 w2 h2 c2]).1.px i j = v2
    rw [renderLayersLoop, List.foldl_cons, List.foldl_cons, List.foldl_nil,
      rect_step env tf data photo 591 _ _ _ _ _ _ _ _ _ hp1 hw1 hh1,
      rect_step env tf data photo 591 _ _ _ _ _ _ _ _ _ hp2 hw2 hh2]
    simp only [if_pos hin2]

/-- Witness for C5: a red rectangle at `zIndex` 1 stored before a blue
one at `zIndex` 2; the overlap pixel (7,7) of the rendered card is
blue, and the same after swapping the storage order. -/
theorem c5_paint_order_witness :
    ((1 : Int) < 2)
    ∧ parseColor "#FF0000" = .ok ⟨255, 0, 0, 255⟩
    ∧ parseColor "#0000FF" = .ok ⟨0, 0, 255, 255⟩
    ∧ (∃ out : Img × List LogEntry,
        TemplateRenderer.render envNull "f"
          (layersTmpl [rectLayer "lo" 1 0 0 10 10 "#FF0000",
                       rectLayer "hi" 2 5 5 10 10 "#0000FF"])
          [] Option.none "front" = .ok out
        ∧ out.1.px 7 7 = ⟨0, 0, 255, 255⟩) :=
  ⟨by decide, by rfl, by rfl,
    (c5_paint_order envNull "f" [] Option.none 1 2 0 0 10 10 5 5 10 10 "#FF0000" "#0000FF"
      ⟨255, 0, 0, 255⟩ ⟨0, 0, 255, 255⟩ (by decide) (by rfl) (by rfl)
      (by decide) (by decide) (by decide) (by decide) 7 7
      ⟨by decide, by decide, by decide, by decide⟩
      ⟨by decide, by decide, by decide, by decide⟩).2
      (rectLayer "lo" 1 0 0 10 10 "#FF0000") (rectLayer "hi" 2 5 5 10 10 "#0000FF")
      (Or.inl ⟨rfl, rfl⟩)⟩

lemma renderLayersLoop_fst_logs (env : Env) (tf : String) (data : PyDict)
    (photo : Option Img) (cw : Int) :
    ∀ (ls : List PyDict) (card : Img) (logs logs' : List LogEntry),
    (renderLayersLoop env tf data photo cw card logs ls).1
      = (renderLayersLoop env tf data photo cw card logs' ls).1 := by
  intro ls
  induction ls with
  | nil => intro card logs logs'; rfl
  | cons d tl ih =>
    intro card logs logs'
    have h1 : (layerStep env tf data photo cw (card, logs) d).1
        = (layerStep env tf data photo cw (card, logs') d).1 := by
      by_cases hv : pyTruthy (dget d "visible" (.bool true))
      · simp only [layerStep, hv, not_true, if_false]
        cases dispatchLayer env tf data photo cw card d with
        | none => rfl
        | some r => cases r <;> rfl
      · simp [layerStep, hv]
    show (renderLayersLoop env tf data photo cw
        (layerStep env tf data photo cw (card, logs) d).1
        (layerStep env tf data photo cw (card, logs) d).2 tl).1 = _
    rw [ih _ _ (layerStep env tf data photo cw (card, logs') d).2, h1]
    rfl

lemma render_layersTmpl_all (env : Env) (tf : String) (data : PyDict) (photo : Option Img)
    (ds : List PyDict) (hz : ∀ d ∈ ds, ∃ n : Int, zKeyV d = .int n) :
    TemplateRenderer.render env tf (layersTmpl ds) data photo "front"
      = .ok (renderLayersLoop env tf data photo 591 (mkImg 591 1004 whiteColor)
          (if ds.isEmpty then [LogEntry.noLayers "front"] else [])
          (List.insertionSort zRel ds)) := by
  cases ds with
  | nil => rfl
  | cons d tl =>
    rw [render_layersTmpl env tf data photo (d :: tl) hz (List.cons_ne_nil d tl)]
    rfl

lemma filter_visible_drop (d : PyDict) (hv : layerVisible d = false)
    (pre post : List PyDict) :
    (pre ++ d :: post).filter layerVisible = (pre ++ post).filter layerVisible := by
  rw [List.filter_append, List.filter_append, List.filter_cons_of_neg (by simp [hv])]

/-- C6: a `visible=false` layer never affects the output.  First
conjunct: at any position in the layer list, the paint loop over the
z-sorted list with the invisible layer equals the loop over the sorted
list with that layer removed — bitmap and logs alike.  Second conjunct:
the full renders of the two templates (with integer sort keys) return
bitmaps that are pixel-identical (`map Prod.fst` discards only the log
trail, which may differ by the empty-layer-list notice). -/
theorem c6_invisible_layer_removed (env : Env) (tf : String) (data : PyDict)
    (photo : Option Img) (d : PyDict)
    (hv : pyTruthy (dget d "visible" (.bool true)) = false) :
    (∀ (cw : Int) (card : Img) (logs : List LogEntry) (pre post : List PyDict),
        renderLayersLoop env tf data photo cw card logs
            (List.insertionSort zRel (pre ++ d :: post))
          = renderLayersLoop env tf data photo cw card logs
              (List.insertionSort zRel (pre ++ post)))
    ∧ (∀ pre post : List PyDict,
        (∀ e ∈ pre ++ d :: post, ∃ n : Int, zKeyV e = .int n) →
        (TemplateRenderer.render env tf (layersTmpl (pre ++ d :: post)) data photo
            "front").map Prod.fst
          = (TemplateRenderer.render env tf (layersTmpl (pre ++ post)) data photo
              "front").map Prod.fst) := by
  have hlv : layerVisible d = false := by simp [layerVisible, hv]
  have hloop : ∀ (cw : Int) (card : Img) (logs : List LogEntry) (pre post : List PyDict),
      renderLayersLoop env tf data photo cw card logs
          (List.insertionSort zRel (pre ++ d :: post))
        = renderLayersLoop env tf data photo cw card logs
            (List.insertionSort zRel (pre ++ post)) := by
    intro cw card logs pre post
    simp only [renderLayersLoop]
    rw [renderLayersLoop_filter_visible env tf data photo cw (card, logs),
      filter_insertionSort, filter_visible_drop d hlv, ← filter_insertionSort,
      ← renderLayersLoop_filter_visible env tf data photo cw (card, logs)]
  refine ⟨hloop, ?_⟩
  intro pre post hz
  have hz' : ∀ e ∈ pre ++ post, ∃ n : Int, zKeyV e = .int n := by
    intro e he
    apply hz
    rcases List.mem_append.mp he with h | h
    · exact List.mem_append.mpr (Or.inl h)
    · exact List.mem_append.mpr (Or.inr (List.mem_cons_of_mem d h))
  rw [render_layersTmpl_all env tf data photo _ hz, render_layersTmpl_all env tf data photo _ hz']
  simp only [Except.map]
  congr 1
  rw [hloop]
  exact renderLayersLoop_fst_logs env tf data photo 591 _ _ _ _

/-- Witness for C6: dropping an invisible layer stored after a red
rectangle leaves the rendered card bitmap unchanged. -/
theorem c6_invisible_layer_removed_witness :
    pyTruthy (dget [("id", PyVal.str "v1"), ("visible", PyVal.bool false)] "visible"
        (.bool true)) = false
    ∧ (TemplateRenderer.render envNull "f"
        (layersTmpl [rectLayer "lo" 1 0 0 10 10 "#FF0000",
                     [("id", PyVal.str "v1"), ("visible", PyVal.bool false)]])
        [] Option.none "front").map Prod.fst
      = (TemplateRenderer.render envNull "f"
          (layersTmpl [rectLayer "lo" 1 0 0 10 10 "#FF0000"]) [] Option.none "front").map
          Prod.fst :=
  ⟨rfl,
    (c6_invisible_layer_removed envNull "f" [] Option.none
        [("id", PyVal.str "v1"), ("visible", PyVal.bool false)] rfl).2
      [rectLayer "lo" 1 0 0 10 10 "#FF0000"] []
      (by
        intro e he
        have he2 : e = rectLayer "lo" 1 0 0 10 10 "#FF0000"
            ∨ e = [("id", PyVal.str "v1"), ("visible", PyVal.bool false)] := by
          simpa using he
        rcases he2 with rfl | rfl
        · exact ⟨1, rfl⟩
        · exact ⟨0, rfl⟩)⟩

lemma render_text_layer_opacity (env : Env) (card : Img) (layer : PyDict) (data : PyDict)
    (cw : Int) (v : PyVal) :
    render_text_layer env card (dset "opacity" v layer) data cw
      = render_text_layer env card layer data cw := by
  simp only [render_text_layer, resolveTextValue, applyCaseTransform, dget_dset,
    String.reduceEq, reduceIte]

lemma render_image_layer_opacity (env : Env) (card : Img) (layer : PyDict) (data : PyDict)
    (photo : Option Img) (bp : String) (v : PyVal) :
    render_image_layer env card (dset "opacity" v layer) data photo bp
      = render_image_layer env card layer data photo bp := by
  simp only [render_image_layer, dget_dset, String.reduceEq, reduceIte]

lemma render_shape_layer_opacity (card : Img) (layer : PyDict) (v : PyVal) :
    render_shape_layer card (dset "opacity" v layer)
      = render_shape_layer card layer := by
  simp only [render_shape_layer, dget_dset, String.reduceEq, reduceIte]

lemma render_qr_code_layer_opacity (env : Env) (card : Img) (layer : PyDict) (data : PyDict)
    (v : PyVal) :
    render_qr_code_layer env card (dset "opacity" v layer) data
      = render_qr_code_layer env card layer data := by
  simp only [render_qr_code_layer, dget_dset, String.reduceEq, reduceIte]

lemma layerStep_opacity (env : Env) (tf : String) (data : PyDict) (photo : Option Img)
    (cw : Int) (st : Img × List LogEntry) (d : PyDict) (v : PyVal) :
    layerStep env tf data photo cw st (dset "opacity" v d)
      = layerStep env tf data photo cw st d := by
  simp only [layerStep, dispatchLayer, dget_dset, String.reduceEq, reduceIte,
    render_text_layer_opacity, render_image_layer_opacity, render_shape_layer_opacity,
    render_qr_code_layer_opacity]

lemma zKeyV_dset_opacity (d : PyDict) (v : PyVal) :
    zKeyV (dset "opacity" v d) = zKeyV d := by
  simp only [zKeyV, dget_dset, String.reduceEq, reduceIte]

lemma orderedInsert_forall₂ (R : PyDict → PyDict → Prop)
    (hzR : ∀ a b, R a b → zInt a = zInt b) (a b : PyDict) (hab : R a b) :
    ∀ {l l' : List PyDict}, List.Forall₂ R l l' →
      List.Forall₂ R (List.orderedInsert zRel a l) (List.orderedInsert zRel b l') := by
  intro l l' h
  induction h with
  | nil => exact List.Forall₂.cons hab List.Forall₂.nil
  | cons hxy htl ih =>
    rename_i x y tl tl'
    by_cases hax : zRel a x
    · have hby : zRel b y := by
        show zInt b ≤ zInt y
        rw [← hzR a b hab, ← hzR x y hxy]
        exact hax
      rw [List.orderedInsert, List.orderedInsert, if_pos hax, if_pos hby]
      exact List.Forall₂.cons hab (List.Forall₂.cons hxy htl)
    · have hby : ¬ zRel b y := by
        show ¬ zInt b ≤ zInt y
        rw [← hzR a b hab, ← hzR x y hxy]
        exact hax
      rw [List.orderedInsert, List.orderedInsert, if_neg hax, if_neg hby]
      exact List.Forall₂.cons hxy ih

lemma insertionSort_forall₂ (R : PyDict → PyDict → Prop)
    (hzR : ∀ a b, R a b → zInt a = zInt b) :
    ∀ {l l' : List PyDict}, List.Forall₂ R l l' →
      List.Forall₂ R (List.insertionSort zRel l) (List.insertionSort zRel l') := by
  intro l l' h
  induction h with
  | nil => exact List.Forall₂.nil
  | cons hxy htl ih =>
    exact orderedInsert_forall₂ R hzR _ _ hxy ih

lemma foldl_layerStep_forall₂ (env : Env) (tf : String) (data : PyDict)
    (photo : Option Img) (cw : Int) :
    ∀ {l l' : List PyDict},
      List.Forall₂ (fun a b => ∀ st, layerStep env tf data photo cw st a
        = layerStep env tf data photo cw st b) l l' →
      ∀ st, List.foldl (layerStep env tf data photo cw) st l
        = List.foldl (layerStep env tf data photo cw) st l' := by
  intro l l' h
  induction h with
  | nil => intro st; rfl
  | cons hxy htl ih =>
    intro st
    rw [List.foldl_cons, List.foldl_cons, hxy st, ih]

/-- C10: a layer's `opacity` attribute never affects the output.  The
render loop reads `layer.get('opacity', 1.0)` into a dead binding and no
layer renderer reads the key, so setting `opacity` to any value on any
layer leaves each loop step unchanged (first conjunct) and leaves the
full render of a template — bitmap and logs alike — unchanged with the
layer at any position in the list (second conjunct). -/
theorem c10_opacity_unused (env : Env) (tf : String) (data : PyDict) (photo : Option Img)
    (v : PyVal) :
    (∀ (cw : Int) (st : Img × List LogEntry) (d : PyDict),
        layerStep env tf data photo cw st (dset "opacity" v d)
          = layerStep env tf data photo cw st d)
    ∧ (∀ (pre post : List PyDict) (d : PyDict),
        (∀ e ∈ pre ++ d :: post, ∃ n : Int, zKeyV e = .int n) →
        TemplateRenderer.render env tf (layersTmpl (pre ++ dset "opacity" v d :: post))
            data photo "front"
          = TemplateRenderer.render env tf (layersTmpl (pre ++ d :: post))
              data photo "front") := by
  refine ⟨fun cw st d => layerStep_opacity env tf data photo cw st d v, ?_⟩
  intro pre post d hz
  have hz' : ∀ e ∈ pre ++ dset "opacity" v d :: post, ∃ n : Int, zKeyV e = .int n := by
    intro e he
    rcases List.mem_append.mp he with h | h
    · exact hz e (List.mem_append.mpr (Or.inl h))
    · rcases List.mem_cons.mp h with rfl | h2
      · rw [zKeyV_dset_opacity]
        exact hz d (List.mem_append.mpr (Or.inr (List.mem_cons_self d post)))
      · exact hz e (List.mem_append.mpr (Or.inr (List.mem_cons_of_mem d h2)))
  rw [render_layersTmpl_all env tf data photo _ hz', render_layersTmpl_all env tf data photo _ hz]
  have hie1 : (pre ++ dset "opacity" v d :: post).isEmpty = false := by
    cases pre <;> rfl
  have hie2 : (pre ++ d :: post).isEmpty = false := by
    cases pre <;> rfl
  rw [hie1, hie2]
  congr 1
  have hR : List.Forall₂
      (fun a b => zInt a = zInt b ∧ ∀ st : Img × List LogEntry,
        layerStep env tf data photo 591 st a = layerStep env tf data photo 591 st b)
      (pre ++ dset "opacity" v d :: post) (pre ++ d :: post) := by
    refine List.rel_append ?_ (List.Forall₂.cons ?_ ?_)
    · exact List.forall₂_same.mpr (fun x _ => ⟨rfl, fun _ => rfl⟩)
    · exact ⟨by rw [zInt, zKeyV_dset_opacity]; rfl,
        fun st => layerStep_opacity env tf data photo 591 st d v⟩
    · exact List.forall₂_same.mpr (fun x _ => ⟨rfl, fun _ => rfl⟩)
  have hsorted := insertionSort_forall₂
    (fun a b => zInt a = zInt b ∧ ∀ st : Img × List LogEntry,
      layerStep env tf data photo 591 st a = layerStep env tf data photo 591 st b)
    (fun a b hab => hab.1) hR
  exact foldl_layerStep_forall₂ env tf data photo 591
    (hsorted.imp (fun a b hab => hab.2)) _

/-- Witness for C10: giving the red rectangle opacity 0.5 changes
nothing in the rendered card. -/
theorem c10_opacity_unused_witness :
    TemplateRenderer.render envNull "f"
        (layersTmpl [dset "opacity" (PyVal.float (1 / 2))
          (rectLayer "lo" 1 0 0 10 10 "#FF0000")]) [] Option.none "front"
      = TemplateRenderer.render envNull "f"
          (layersTmpl [rectLayer "lo" 1 0 0 10 10 "#FF0000"]) [] Option.none "front" :=
  (c10_opacity_unused envNull "f" [] Option.none (PyVal.float (1 / 2))).2 [] []
    (rectLayer "lo" 1 0 0 10 10 "#FF0000")
    (by
      intro e he
      have h2 : e = rectLayer "lo" 1 0 0 10 10 "#FF0000" := by simpa using he
      subst h2
      exact ⟨1, rfl⟩)

lemma ratTrunc_lineSpacing : ratTrunc ((16 : ℚ) * (6 / 5)) = 19 := by
  norm_num [ratTrunc]

lemma parseColor_black : parseColor "#000000" = .ok blackColor := by rfl

lemma drawLines_single (env : Env) (font : Font) (colorV : PyVal) (lX : Int → ℚ)
    (lY : Nat → ℚ) (img : Img) (i : Nat) (l : String) :
    drawLines env font colorV PyVal.none lX lY img i [l]
      = drawText env img (lX ((env.textWidth font l : Int))) (lY i) l font colorV := by
  show (drawText env img (lX ((env.textWidth font l : Int))) (lY i) l font colorV).bind
      (fun img2 => drawLines env font colorV PyVal.none lX lY img2 (i + 1) [])
    = _
  cases drawText env img (lX ((env.textWidth font l : Int))) (lY i) l font colorV <;> rfl

lemma text0_eval (env : Env) (card : Img) (x y w h : Int) (s : String) (hs : s ≠ "")
    (data : PyDict) (cw' : Int) :
    render_text_layer env card (staticTextLayer x y w h 0 s) data cw'
      = .ok ⟨card.w, card.h, fun i j =>
          if env.glyphMask (FontManager.load_font_v env "Arial" 16 (.str "normal")) s
              (i - x) (j - y) then blackColor else card.px i j⟩ := by
  have hd : decide (s ≠ "") = true := by simp [hs]
  simp only [render_text_layer, staticTextLayer, resolveTextValue, applyCaseTransform,
    dget, dlookup, String.reduceEq, reduceIte, Option.getD, pyEqStr, pyTruthy, hs, hd,
    pyNonZero, pyArith, pyIntCoerce, bindE_ok, bindE_err, decide_True, decide_False,
    not_true, not_false_iff, ite_true, ite_false, directAlignOff, ratTrunc_intCast,
    Bool.false_eq_true, bne_self_eq_false, false_and, eq_self_iff_true, if_true, if_false]
  rw [drawLines_single]
  simp only [drawText, parseColor_black, bindE_ok, Nat.cast_zero, zero_mul, add_zero,
    ratTrunc_intCast]
  rfl

lemma ratTrunc_lineSpacing' : ratTrunc ((((16 : Int)) : ℚ) * (6 / 5)) = 19 := by
  norm_num [ratTrunc]

lemma rotNormalized_neg360 : rotNormalized (-((360 : Int) : ℚ)) = 0 := by
  norm_num [rotNormalized]

lemma text360_eval (env : Env) (card : Img) (x y w h : Int) (hw : 0 ≤ w) (hh : 0 ≤ h)
    (s : String) (hs : s ≠ "") (data : PyDict) (cw' : Int) :
    render_text_layer env card (staticTextLayer x y w h 360 s) data cw'
      = .ok (pasteMask
          ⟨max w ((env.textWidth (FontManager.load_font_v env "Arial" 16 (.str "normal")) s
              : Int)) + 40,
           max h 19 + 40,
           fun u v =>
             if env.glyphMask (FontManager.load_font_v env "Arial" 16 (.str "normal")) s
                 (u - 20) (v - 20) then blackColor else clearColor⟩
          x y card) := by
  have hd : decide (s ≠ "") = true := by simp [hs]
  simp only [render_text_layer, staticTextLayer, resolveTextValue, applyCaseTransform,
    dget, dlookup, String.reduceEq, reduceIte, Option.getD, pyEqStr, pyTruthy, hs, hd,
    pyNonZero, pyArith, pyIntCoerce, bindE_ok, bindE_err, decide_True, decide_False,
    not_true, not_false_iff, ite_true, ite_false, rotAlignOff, ratTrunc_intCast,
    Bool.false_eq_true, bne_self_eq_false, false_and, eq_self_iff_true, if_true, if_false,
    List.foldl_cons, List.foldl_nil, List.length_singleton, ratTrunc_lineSpacing',
    Nat.cast_one, one_mul, ratTrunc_lineSpacing]
  have htw0 : (0 : Int) ⊔ ((env.textWidth (FontManager.load_font_v env "Arial" 16
      (.str "normal")) s : Int))
      = ((env.textWidth (FontManager.load_font_v env "Arial" 16 (.str "normal")) s : Int)) :=
    max_eq_right (Int.ofNat_nonneg _)
  rw [htw0]
  have hb360 : ((360 : Int) != 0) = true := by rfl
  have hc40 : (40 : ℚ) = ((40 : Int) : ℚ) := by norm_num
  rw [hb360, if_pos rfl, hc40, ← Int.cast_max, ← Int.cast_add, ← Int.cast_max,
    ← Int.cast_add, toIntE_intCast, bindE_ok, toIntE_intCast, bindE_ok]
  have h1 : (0 : Int) ≤ w ⊔ ((env.textWidth (FontManager.load_font_v env "Arial" 16
      (.str "normal")) s : Int)) := le_sup_of_le_left hw
  have h2 : (0 : Int) ≤ h ⊔ 19 := le_sup_of_le_left hh
  rw [if_neg (by omega), drawLines_single]
  have hrt20 : ratTrunc (20 : ℚ) = 20 := by norm_num [ratTrunc]
  simp only [add_zero, Nat.cast_zero, zero_mul, drawText, parseColor_black, bindE_ok,
    hrt20, mkImg, pilRotateExpand, rotNormalized_neg360, eq_self_iff_true, if_true,
    sub_self, Int.zero_fdiv, Int.cast_zero, sub_zero, toIntE_intCast]
  rfl

lemma blendPx_black (c : Color) : blendPx blackColor c = blackColor := by
  cases c
  simp [blendPx, blendCh, blackColor]

lemma blendPx_clear (c : Color) : blendPx clearColor c = c := by
  cases c
  simp [blendPx, blendCh, clearColor, Nat.mul_div_cancel]

/-- C9 amended: for a left-aligned, shadow-free, static single-line
text layer with integer box on a uniform card, rendering with rotation
360 produces exactly the rotation-0 bitmap translated by (+20, +20):
same canvas size, every pixel shifted by the rotation buffer's padding
margin.  The outputs are not pixel-equivalent at equal positions (see
the counterexample); the deviation is the constant padding offset, not
a resampling tolerance.  The mask hypothesis confines the glyph ink to
the measured text block, as PIL's raster does. -/
theorem c9_rotation360_amended (env : Env) (cw ch : Int) (cc : Color)
    (x y w h : Int) (hw : 0 ≤ w) (hh : 0 ≤ h) (s : String) (hs : s ≠ "")
    (data : PyDict) (cw' : Int)
    (hmask : ∀ u v : Int,
      env.glyphMask (FontManager.load_font_v env "Arial" 16 (.str "normal")) s u v = true →
      0 ≤ u ∧ u ≤ w ⊔ ((env.textWidth (FontManager.load_font_v env "Arial" 16
        (.str "normal")) s : Int)) ∧ 0 ≤ v ∧ v ≤ h ⊔ 19) :
    ∃ img0 img360 : Img,
      render_text_layer env (mkImg cw ch cc) (staticTextLayer x y w h 0 s) data cw'
        = .ok img0
      ∧ render_text_layer env (mkImg cw ch cc) (staticTextLayer x y w h 360 s) data cw'
        = .ok img360
      ∧ img360.w = img0.w ∧ img360.h = img0.h
      ∧ ∀ i j : Int, img360.px i j = img0.px (i - 20) (j - 20) := by
  refine ⟨_, _, text0_eval env (mkImg cw ch cc) x y w h s hs data cw',
    text360_eval env (mkImg cw ch cc) x y w h hw hh s hs data cw', rfl, rfl, ?_⟩
  intro i j
  have harg1 : i - 20 - x = i - x - 20 := by ring
  have harg2 : j - 20 - y = j - y - 20 := by ring
  simp only [pasteMask, mkImg, harg1, harg2]
  by_cases hm : env.glyphMask (FontManager.load_font_v env "Arial" 16 (.str "normal")) s
      (i - x - 20) (j - y - 20) = true
  · have hb := hmask _ _ hm
    have hin : (x ≤ i ∧ i < x + (w ⊔ ((env.textWidth (FontManager.load_font_v env "Arial" 16
        (.str "normal")) s : Int)) + 40) ∧ y ≤ j ∧ j < y + (h ⊔ 19 + 40)) := by omega
    rw [if_pos hin, if_pos hm, if_pos hm, blendPx_black]
  · rw [if_neg hm, if_neg hm]
    by_cases hin : (x ≤ i ∧ i < x + (w ⊔ ((env.textWidth (FontManager.load_font_v env
        "Arial" 16 (.str "normal")) s : Int)) + 40) ∧ y ≤ j ∧ j < y + (h ⊔ 19 + 40))
    · rw [if_pos hin, blendPx_clear]
    · rw [if_neg hin]

/-- Counterexample to C9 as stated: on a white card, a static one-glyph
text layer rendered with rotation 0 puts ink at the anchor (100,100)
and leaves (120,120) white, while the identical layer with rotation 360
leaves (100,100) white and puts the ink at (120,120).  Rotation by 360°
is exact in PIL (the angle is reduced modulo 360 and the buffer
returned unrotated), so the 20-pixel displacement is a deterministic
offset of the rotation path — the buffer's fixed 20-pixel padding is
never subtracted from the paste position — not a resampling error. -/
theorem c9_rotation360_counterexample :
    (render_text_layer envNull (mkImg 591 1004 whiteColor)
        (staticTextLayer 100 100 200 50 0 "A") [] 591).map
        (fun im => (im.px 100 100, im.px 120 120)) = .ok (blackColor, whiteColor)
    ∧ (render_text_layer envNull (mkImg 591 1004 whiteColor)
        (staticTextLayer 100 100 200 50 360 "A") [] 591).map
        (fun im => (im.px 100 100, im.px 120 120)) = .ok (whiteColor, blackColor)
    ∧ blackColor ≠ whiteColor := by
  refine ⟨?_, ?_, by decide⟩
  · rw [text0_eval envNull (mkImg 591 1004 whiteColor) 100 100 200 50 "A" (by decide) [] 591]
    rfl
  · rw [text360_eval envNull (mkImg 591 1004 whiteColor) 100 100 200 50 (by decide)
      (by decide) "A" (by decide) [] 591]
    rfl

/-- Witness for C9 amended: the one-glyph raster of the null
environment satisfies the mask bound, and the translated-bitmap
relation holds at the concrete layer of the counterexample. -/
theorem c9_rotation360_amended_witness :
    ((0 : Int) ≤ 200) ∧ ((0 : Int) ≤ 50) ∧ ("A" : String) ≠ ""
    ∧ (∃ img0 img360 : Img,
        render_text_layer envNull (mkImg 591 1004 whiteColor)
            (staticTextLayer 100 100 200 50 0 "A") [] 591 = .ok img0
        ∧ render_text_layer envNull (mkImg 591 1004 whiteColor)
            (staticTextLayer 100 100 200 50 360 "A") [] 591 = .ok img360
        ∧ img360.w = img0.w ∧ img360.h = img0.h
        ∧ ∀ i j : Int, img360.px i j = img0.px (i - 20) (j - 20)) :=
  ⟨by decide, by decide, by decide,
    c9_rotation360_amended envNull 591 1004 whiteColor 100 100 200 50 (by decide) (by decide)
      "A" (by decide) [] 591
      (by
        intro u v huv
        have h0 : u = 0 ∧ v = 0 := by simpa [envNull] using huv
        obtain ⟨rfl, rfl⟩ := h0
        exact ⟨le_refl 0, by decide, le_refl 0, by decide⟩)⟩

/-- Counterexample to C8 as stated: a 10×20 source placed with
object-fit contain into a 100×100 box is not scaled up — `thumbnail`
never upscales — so it stays 10×20, strictly inside the box and
touching the box on neither axis: the centre pixel of the box carries
the source's colour but the centre of the box's left edge, which a
scaled-to-fit image would cover, is fully transparent. -/
theorem c8_contain_counterexample :
    thumbSize (mkImg 10 20 whiteColor).w (mkImg 10 20 whiteColor).h 100 100 = (10, 20)
    ∧ (10 : Int) < 100 ∧ (20 : Int) < 100
    ∧ (containFit envNull (mkImg 10 20 whiteColor) 100 100).px 50 50 = whiteColor
    ∧ (containFit envNull (mkImg 10 20 whiteColor) 100 100).px 0 50 = clearColor := by
  refine ⟨by decide, by decide, by decide, ?_, ?_⟩ <;> decide
